import Mathlib

/-!
Verification of the MarketHub order engine (order router and product router).

The definitions below are a shallow embedding of the TypeScript source:
the Prisma tables become lists of records in a `DB` state, each RPC handler
becomes a function `... → Except Err α × DB` returning the handler result
together with the state after the call (on an error the transaction rolls
back, so the original state is returned), and the helper functions
(`validateCartItems`, `groupCartItemsByVendor`, `getVendorProfile`) are
translated directly.  Money amounts (the JS `number` prices and totals)
are modelled as exact integers in minor units — none of the verified
properties depends on prices being fractional — and stock is an integer so
that non-negativity is a provable property rather than a typing artifact.
JS `Map` key insertion order is modelled by association lists.
-/

namespace MarketHub

/-- Order status enum (Prisma `OrderStatus`). -/
inductive OrderStatus where
  | PENDING
  | CONFIRMED
  | SHIPPED
  | DELIVERED
  | CANCELLED
deriving DecidableEq

/-- String form of a status, used in the cancelOrder error message. -/
def OrderStatus.toName : OrderStatus → String
  | .PENDING => "PENDING"
  | .CONFIRMED => "CONFIRMED"
  | .SHIPPED => "SHIPPED"
  | .DELIVERED => "DELIVERED"
  | .CANCELLED => "CANCELLED"

/-- The `z.enum(["CONFIRMED", "SHIPPED", "DELIVERED", "CANCELLED"])` input
type of `updateOrderStatus`: note that `PENDING` is not accepted. -/
inductive OrderStatusInput where
  | CONFIRMED
  | SHIPPED
  | DELIVERED
  | CANCELLED
deriving DecidableEq

def OrderStatusInput.toStatus : OrderStatusInput → OrderStatus
  | .CONFIRMED => .CONFIRMED
  | .SHIPPED => .SHIPPED
  | .DELIVERED => .DELIVERED
  | .CANCELLED => .CANCELLED

/-- `ORPCError` codes thrown by the routers, with their messages.
`INTERNAL_SERVER_ERROR` models a storage-layer failure (e.g. a dangling
foreign key surfacing from a Prisma `include`), which aborts the
transaction. -/
inductive Err where
  | BAD_REQUEST (message : String)
  | FORBIDDEN (message : String)
  | NOT_FOUND (message : String)
  | INTERNAL_SERVER_ERROR
deriving DecidableEq

/-- Prisma `Vendor` row (the fields the order/product routers read). -/
structure Vendor where
  id : String
  userId : String
  isApproved : Bool
deriving DecidableEq

/-- Prisma `Product` row (the fields the order/product routers read). -/
@[ext]
structure Product where
  id : String
  vendorId : String
  name : String
  descr : String
  price : Int
  stock : Int
  isActive : Bool
  categoryId : String
deriving DecidableEq

/-- Prisma `CartItem` row; `(userId, productId)` is unique in the schema. -/
structure CartItem where
  userId : String
  productId : String
  quantity : Nat
deriving DecidableEq

/-- Prisma `Order` row.  Ids are modelled as consecutive naturals drawn from
the `DB.nextOrderId` counter. -/
structure Order where
  id : Nat
  userId : String
  vendorId : String
  shippingAddress : String
  total : Int
  status : OrderStatus
deriving DecidableEq

/-- Prisma `OrderItem` row; `price` is the snapshot taken at checkout. -/
structure OrderItem where
  orderId : Nat
  productId : String
  quantity : Nat
  price : Int
deriving DecidableEq

/-- The cart item with `product` (and its `vendor`) joined, as produced by
the `include` in `createOrder` (type `CartItemWithProduct` in the source;
the nested `product.vendor` is flattened into the `vendor` field). -/
structure CartItemWithProduct where
  userId : String
  productId : String
  quantity : Nat
  product : Product
  vendor : Vendor
deriving DecidableEq

/-- The database state seen by the routers. -/
@[ext]
structure DB where
  vendors : List Vendor
  products : List Product
  categories : List String
  cartItems : List CartItem
  orders : List Order
  orderItems : List OrderItem
  nextOrderId : Nat
deriving DecidableEq

/-- `prisma.vendor.findUnique({ where: { userId } })`. -/
def findVendorByUserId (db : DB) (userId : String) : Option Vendor :=
  db.vendors.find? (fun v => decide (v.userId = userId))

/-- `prisma.product.findUnique({ where: { id } })`. -/
def findProduct (db : DB) (productId : String) : Option Product :=
  db.products.find? (fun p => decide (p.id = productId))

/-- `prisma.order.findUnique({ where: { id } })`. -/
def findOrder (db : DB) (orderId : Nat) : Option Order :=
  db.orders.find? (fun o => decide (o.id = orderId))

/-- The `items` relation of an order (`include: { items: ... }`). -/
def orderItemsOf (db : DB) (orderId : Nat) : List OrderItem :=
  db.orderItems.filter (fun oi => decide (oi.orderId = orderId))

/-- The current user's cart rows
(`cartItem.findMany({ where: { userId } })`). -/
def userCart (db : DB) (userId : String) : List CartItem :=
  db.cartItems.filter (fun ci => decide (ci.userId = userId))

/-- Join one cart row with its product and the product's vendor, as the
`include: { product: { include: { vendor: true } } }` does. -/
def joinCartItem (db : DB) (ci : CartItem) : Option CartItemWithProduct :=
  (findProduct db ci.productId).bind (fun p =>
    (db.vendors.find? (fun v => decide (v.id = p.vendorId))).map (fun v =>
      ⟨ci.userId, ci.productId, ci.quantity, p, v⟩))

/-- Join a whole list of cart rows; `none` models a dangling foreign key. -/
def joinAll (db : DB) : List CartItem → Option (List CartItemWithProduct)
  | [] => some []
  | ci :: rest =>
    match joinCartItem db ci with
    | none => none
    | some it =>
      match joinAll db rest with
      | none => none
      | some its => some (it :: its)

/-- Step 1 of `createOrder`: load the user's cart with products and vendors
joined. -/
def loadCartItems (db : DB) (userId : String) :
    Option (List CartItemWithProduct) :=
  joinAll db (userCart db userId)

/-- `validateCartItems` from the order router: walks the cart in order and
throws `BAD_REQUEST` at the first inactive product, unapproved vendor, or
over-stock quantity. -/
def validateCartItems : List CartItemWithProduct → Except Err Unit
  | [] => .ok ()
  | item :: rest =>
    if !item.product.isActive then
      let n := item.product.name
      .error (.BAD_REQUEST s!"Product \"{n}\" is no longer available")
    else if !item.vendor.isApproved then
      let n := item.product.name
      .error (.BAD_REQUEST s!"Vendor for \"{n}\" is no longer approved")
    else if (item.quantity : Int) > item.product.stock then
      let n := item.product.name
      let st := toString item.product.stock
      .error (.BAD_REQUEST
        s!"Insufficient stock for \"{n}\". Only {st} available.")
    else
      validateCartItems rest

/-- One step of `groupCartItemsByVendor`'s loop: a JS `Map` keyed by
`vendorId` is an association list whose keys keep insertion order. -/
def insertByVendor (groups : List (String × List CartItemWithProduct))
    (item : CartItemWithProduct) : List (String × List CartItemWithProduct) :=
  let vendorId := item.product.vendorId
  if groups.any (fun g => decide (g.1 = vendorId)) then
    groups.map (fun g => if g.1 = vendorId then (g.1, g.2 ++ [item]) else g)
  else
    groups ++ [(vendorId, [item])]

/-- `groupCartItemsByVendor` from the order router. -/
def groupCartItemsByVendor (cartItems : List CartItemWithProduct) :
    List (String × List CartItemWithProduct) :=
  cartItems.foldl insertByVendor []

/-- `tx.product.update({ data: { stock: { increment / decrement } } })`:
adds `delta` to the stock of the product with the given id. -/
def adjustStock (products : List Product) (productId : String) (delta : Int) :
    List Product :=
  products.map (fun p =>
    if p.id = productId then { p with stock := p.stock + delta } else p)

/-- The `items.reduce((sum, item) => sum + item.product.price *
item.quantity, 0)` total of one vendor group. -/
def orderTotal (items : List CartItemWithProduct) : Int :=
  items.foldl (fun sum item => sum + item.product.price * (item.quantity : Int)) 0

/-- The `Order` row created for one vendor group (`tx.order.create`). -/
def mkOrder (userId shippingAddress : String) (oid : Nat)
    (g : String × List CartItemWithProduct) : Order :=
  { id := oid, userId := userId, vendorId := g.1,
    shippingAddress := shippingAddress, total := orderTotal g.2,
    status := .PENDING }

/-- The `OrderItem` rows created for one vendor group (the nested
`items: { create: ... }` with the price snapshot). -/
def mkOrderItems (oid : Nat) (items : List CartItemWithProduct) :
    List OrderItem :=
  items.map (fun it =>
    { orderId := oid, productId := it.productId, quantity := it.quantity,
      price := it.product.price })

/-- Steps 4-5 of `createOrder`: for each vendor group, create the order and
its items, then decrement the stock of each purchased product. -/
def processGroups (userId shippingAddress : String) :
    List (String × List CartItemWithProduct) → DB → List Order × DB
  | [], db => ([], db)
  | g :: rest, db =>
    let oid := db.nextOrderId
    let order := mkOrder userId shippingAddress oid g
    let db1 : DB := { db with
      orders := db.orders ++ [order],
      orderItems := db.orderItems ++ mkOrderItems oid g.2,
      nextOrderId := oid + 1 }
    let db2 : DB := { db1 with
      products := g.2.foldl
        (fun ps it => adjustStock ps it.productId (-(it.quantity : Int)))
        db1.products }
    let result := processGroups userId shippingAddress rest db2
    (order :: result.1, result.2)

/-- The body of the `prisma.$transaction` in `createOrder`. -/
def createOrderTx (userId shippingAddress : String) (db : DB) :
    Except Err (List Order × DB) :=
  match loadCartItems db userId with
  | none => .error .INTERNAL_SERVER_ERROR
  | some cartItems =>
    if cartItems.length = 0 then
      .error (.BAD_REQUEST "Your cart is empty")
    else
      match validateCartItems cartItems with
      | .error e => .error e
      | .ok _ =>
        let vendorGroups := groupCartItemsByVendor cartItems
        let result := processGroups userId shippingAddress vendorGroups db
        let db2 : DB := { result.2 with
          cartItems := result.2.cartItems.filter
            (fun ci => !decide (ci.userId = userId)) }
        .ok (result.1, db2)

/-- `createOrder`: the transaction commits on success and rolls back (the
original `db` is kept) on any error. -/
def createOrder (userId shippingAddress : String) (db : DB) :
    Except Err (List Order) × DB :=
  match createOrderTx userId shippingAddress db with
  | .error e => (.error e, db)
  | .ok (orders, db2) => (.ok orders, db2)

/-- `tx.order.update({ where: { id }, data: { status } })`. -/
def setOrderStatus (orders : List Order) (orderId : Nat) (s : OrderStatus) :
    List Order :=
  orders.map (fun o => if o.id = orderId then { o with status := s } else o)

/-- The stock-restoration loop of the two cancellation paths: increments
each order item's quantity back onto its product. -/
def restoreStock (products : List Product) (items : List OrderItem) :
    List Product :=
  items.foldl (fun ps it => adjustStock ps it.productId (it.quantity : Int))
    products

/-- `updateOrderStatus` from the order router (vendor side).  The checks
run in source order: vendor profile, order existence, ownership, the two
terminal-state guards, then the status write (with stock restoration when
the requested status is `CANCELLED`). -/
def updateOrderStatus (callerUserId : String) (orderId : Nat)
    (status : OrderStatusInput) (db : DB) : Except Err Order × DB :=
  match findVendorByUserId db callerUserId with
  | none => (.error (.FORBIDDEN "You must be a vendor to perform this action"), db)
  | some vendor =>
    match findOrder db orderId with
    | none => (.error (.NOT_FOUND "Order not found"), db)
    | some order =>
      if order.vendorId ≠ vendor.id then
        (.error (.FORBIDDEN "You can only update your own orders"), db)
      else if order.status = .CANCELLED then
        (.error (.BAD_REQUEST "Cannot update a cancelled order"), db)
      else if order.status = .DELIVERED then
        (.error (.BAD_REQUEST "Cannot update a delivered order"), db)
      else if status = .CANCELLED then
        (.ok { order with status := .CANCELLED },
         { db with
            products := restoreStock db.products (orderItemsOf db orderId),
            orders := setOrderStatus db.orders orderId .CANCELLED })
      else
        (.ok { order with status := status.toStatus },
         { db with orders := setOrderStatus db.orders orderId status.toStatus })

/-- `cancelOrder` from the order router (customer side). -/
def cancelOrder (callerUserId : String) (orderId : Nat) (db : DB) :
    Except Err Order × DB :=
  match findOrder db orderId with
  | none => (.error (.NOT_FOUND "Order not found"), db)
  | some order =>
    if order.userId ≠ callerUserId then
      (.error (.FORBIDDEN "You can only cancel your own orders"), db)
    else if order.status ≠ .PENDING ∧ order.status ≠ .CONFIRMED then
      let st := order.status.toName
      (.error (.BAD_REQUEST s!"Cannot cancel order with status {st}"), db)
    else
      (.ok { order with status := .CANCELLED },
       { db with
          products := restoreStock db.products (orderItemsOf db orderId),
          orders := setOrderStatus db.orders orderId .CANCELLED })

/-- The optional-field input of `updateProduct` in the product router. -/
structure UpdateProductInput where
  productId : String
  name : Option String := none
  descr : Option String := none
  price : Option Int := none
  stock : Option Int := none
  categoryId : Option String := none
  isActive : Option Bool := none
deriving DecidableEq

/-- The `prisma.product.update({ data: updateData })` applied to one row:
each provided field overwrites, each omitted field is kept. -/
def applyProductUpdate (input : UpdateProductInput) (p : Product) : Product :=
  { p with
    name := input.name.getD p.name,
    descr := input.descr.getD p.descr,
    price := input.price.getD p.price,
    stock := input.stock.getD p.stock,
    categoryId := input.categoryId.getD p.categoryId,
    isActive := input.isActive.getD p.isActive }

/-- `updateProduct` from the product router. -/
def updateProduct (callerUserId : String) (input : UpdateProductInput)
    (db : DB) : Except Err Product × DB :=
  match findVendorByUserId db callerUserId with
  | none => (.error (.FORBIDDEN "You must be a vendor to perform this action"), db)
  | some vendor =>
    match findProduct db input.productId with
    | none => (.error (.NOT_FOUND "Product not found"), db)
    | some existingProduct =>
      if existingProduct.vendorId ≠ vendor.id then
        (.error (.FORBIDDEN "You can only update your own products"), db)
      else
        let categoryOk := match input.categoryId with
          | none => true
          | some cid => db.categories.contains cid
        if categoryOk then
          (.ok (applyProductUpdate input existingProduct),
           { db with products := db.products.map (fun p =>
               if p.id = input.productId then applyProductUpdate input p
               else p) })
        else
          (.error (.NOT_FOUND "Category not found"), db)

/-- The state-mutating public operations of the repository (the remaining
procedures of the two routers and of the other routers are read-only with
respect to orders, order items and product stock). -/
inductive Op where
  | createOrderOp (userId shippingAddress : String)
  | updateOrderStatusOp (userId : String) (orderId : Nat)
      (status : OrderStatusInput)
  | cancelOrderOp (userId : String) (orderId : Nat)
  | updateProductOp (userId : String) (input : UpdateProductInput)

/-- The state after running one operation (errors roll back). -/
def applyOp (db : DB) : Op → DB
  | .createOrderOp u a => (createOrder u a db).2
  | .updateOrderStatusOp u oid s => (updateOrderStatus u oid s db).2
  | .cancelOrderOp u oid => (cancelOrder u oid db).2
  | .updateProductOp u inp => (updateProduct u inp db).2

/-- The state after a sequence of operations. -/
def applyOps (db : DB) (ops : List Op) : DB := ops.foldl applyOp db

/-- The distinct vendor ids of a joined cart, in first-occurrence order
(the key set of the JS `Map` built by `groupCartItemsByVendor`). -/
def vendorKeys : List CartItemWithProduct → List String
  | [] => []
  | it :: rest =>
    it.product.vendorId ::
      (vendorKeys rest).filter (fun v => decide (v ≠ it.product.vendorId))

/-- Closed form of `groupCartItemsByVendor`: one group per distinct vendor
id, each holding the cart lines of that vendor in cart order. -/
def groupsOf (items : List CartItemWithProduct) :
    List (String × List CartItemWithProduct) :=
  (vendorKeys items).map (fun v =>
    (v, items.filter (fun it => decide (it.product.vendorId = v))))

/-- All items of a group list, in group order. -/
def allItems : List (String × List CartItemWithProduct) →
    List CartItemWithProduct
  | [] => []
  | g :: rest => g.2 ++ allItems rest

/-- Sequential stock adjustments. -/
def applyAdjusts (products : List Product) (deltas : List (String × Int)) :
    List Product :=
  deltas.foldl (fun ps d => adjustStock ps d.1 d.2) products

/-- Net stock change of one product over a list of adjustments. -/
def netDelta (productId : String) (deltas : List (String × Int)) : Int :=
  (deltas.map (fun d => if d.1 = productId then d.2 else 0)).sum

/-- The stock decrements performed for a list of cart lines. -/
def cartDeltas (items : List CartItemWithProduct) : List (String × Int) :=
  items.map (fun it => (it.productId, -(it.quantity : Int)))

/-- Total quantity of one product over a list of joined cart lines. -/
def sumQty (productId : String) (items : List CartItemWithProduct) : Nat :=
  (items.map (fun it => if it.productId = productId then it.quantity else 0)).sum

/-- Total quantity of one product purchased from the user's cart rows. -/
def purchasedQty (db : DB) (userId productId : String) : Nat :=
  ((userCart db userId).map (fun ci =>
    if ci.productId = productId then ci.quantity else 0)).sum

/-- The orders created by `processGroups`, one per group, with consecutive
ids starting at `n`. -/
def groupOrders (userId shippingAddress : String) :
    List (String × List CartItemWithProduct) → Nat → List Order
  | [], _ => []
  | g :: rest, n =>
    mkOrder userId shippingAddress n g ::
      groupOrders userId shippingAddress rest (n + 1)

/-- The order items created by `processGroups`. -/
def groupOrderItems : List (String × List CartItemWithProduct) → Nat →
    List OrderItem
  | [], _ => []
  | g :: rest, n => mkOrderItems n g.2 ++ groupOrderItems rest (n + 1)

/-- The stock increments performed when restoring a list of order items. -/
def itemDeltas (items : List OrderItem) : List (String × Int) :=
  items.map (fun oi => (oi.productId, (oi.quantity : Int)))

/-! ### Stock-adjustment algebra -/

theorem stock_set_self (p : Product) : { p with stock := p.stock } = p := rfl

theorem netDelta_nil (pid : String) : netDelta pid [] = 0 := rfl

theorem netDelta_cons (pid : String) (d : String × Int)
    (ds : List (String × Int)) :
    netDelta pid (d :: ds) =
      (if d.1 = pid then d.2 else 0) + netDelta pid ds := by
  simp [netDelta]

theorem netDelta_append (pid : String) (d1 d2 : List (String × Int)) :
    netDelta pid (d1 ++ d2) = netDelta pid d1 + netDelta pid d2 := by
  simp [netDelta]

theorem applyAdjusts_nil (ps : List Product) : applyAdjusts ps [] = ps := rfl

theorem applyAdjusts_cons (ps : List Product) (d : String × Int)
    (ds : List (String × Int)) :
    applyAdjusts ps (d :: ds) = applyAdjusts (adjustStock ps d.1 d.2) ds := rfl

theorem applyAdjusts_append (ps : List Product) (d1 d2 : List (String × Int)) :
    applyAdjusts ps (d1 ++ d2) = applyAdjusts (applyAdjusts ps d1) d2 := by
  simp [applyAdjusts, List.foldl_append]

/-- A run of adjustments moves every product's stock by its net delta and
changes nothing else. -/
theorem applyAdjusts_eq_map (ds : List (String × Int)) :
    ∀ ps : List Product, applyAdjusts ps ds =
      ps.map (fun p => { p with stock := p.stock + netDelta p.id ds }) := by
  induction ds with
  | nil =>
    intro ps
    have h : ∀ p : Product, { p with stock := p.stock + netDelta p.id [] } = p := by
      intro p; cases p; simp [netDelta]
    simp only [applyAdjusts_nil, h, List.map_id']
  | cons d ds ih =>
    intro ps
    rw [applyAdjusts_cons, ih, adjustStock, List.map_map]
    refine congrArg (fun f => List.map f ps) (funext fun p => ?_)
    by_cases h : p.id = d.1
    · simp [Function.comp, h, netDelta_cons, add_assoc]
    · have h2 : ¬ d.1 = p.id := fun hh => h hh.symm
      simp [Function.comp, h, h2, netDelta_cons]

theorem foldl_adjust_neg (items : List CartItemWithProduct)
    (ps : List Product) :
    items.foldl
      (fun ps it => adjustStock ps it.productId (-(it.quantity : Int))) ps =
      applyAdjusts ps (cartDeltas items) := by
  simp [applyAdjusts, cartDeltas, List.foldl_map]

theorem restoreStock_eq (items : List OrderItem) (ps : List Product) :
    restoreStock ps items = applyAdjusts ps (itemDeltas items) := by
  simp [restoreStock, applyAdjusts, itemDeltas, List.foldl_map]

/-! ### Characterization of `processGroups` -/

theorem processGroups_fst (u a : String)
    (gs : List (String × List CartItemWithProduct)) :
    ∀ db : DB, (processGroups u a gs db).1 =
      groupOrders u a gs db.nextOrderId := by
  induction gs with
  | nil => intro db; rfl
  | cons g rest ih =>
    intro db
    simp only [processGroups, groupOrders, ih]

theorem processGroups_vendors (u a : String)
    (gs : List (String × List CartItemWithProduct)) :
    ∀ db : DB, (processGroups u a gs db).2.vendors = db.vendors := by
  induction gs with
  | nil => intro db; rfl
  | cons g rest ih => intro db; simp only [processGroups, ih]

theorem processGroups_categories (u a : String)
    (gs : List (String × List CartItemWithProduct)) :
    ∀ db : DB, (processGroups u a gs db).2.categories = db.categories := by
  induction gs with
  | nil => intro db; rfl
  | cons g rest ih => intro db; simp only [processGroups, ih]

theorem processGroups_cartItems (u a : String)
    (gs : List (String × List CartItemWithProduct)) :
    ∀ db : DB, (processGroups u a gs db).2.cartItems = db.cartItems := by
  induction gs with
  | nil => intro db; rfl
  | cons g rest ih => intro db; simp only [processGroups, ih]

theorem processGroups_nextOrderId (u a : String)
    (gs : List (String × List CartItemWithProduct)) :
    ∀ db : DB, (processGroups u a gs db).2.nextOrderId =
      db.nextOrderId + gs.length := by
  induction gs with
  | nil => intro db; simp [processGroups]
  | cons g rest ih =>
    intro db
    simp only [processGroups, ih]
    simp [Nat.add_assoc, Nat.add_comm 1 rest.length]

theorem processGroups_orders (u a : String)
    (gs : List (String × List CartItemWithProduct)) :
    ∀ db : DB, (processGroups u a gs db).2.orders =
      db.orders ++ groupOrders u a gs db.nextOrderId := by
  induction gs with
  | nil => intro db; simp [processGroups, groupOrders]
  | cons g rest ih =>
    intro db
    simp only [processGroups, ih, groupOrders]
    simp [List.append_assoc]

theorem processGroups_orderItems (u a : String)
    (gs : List (String × List CartItemWithProduct)) :
    ∀ db : DB, (processGroups u a gs db).2.orderItems =
      db.orderItems ++ groupOrderItems gs db.nextOrderId := by
  induction gs with
  | nil => intro db; simp [processGroups, groupOrderItems]
  | cons g rest ih =>
    intro db
    simp only [processGroups, ih, groupOrderItems]
    simp [List.append_assoc]

theorem processGroups_products (u a : String)
    (gs : List (String × List CartItemWithProduct)) :
    ∀ db : DB, (processGroups u a gs db).2.products =
      applyAdjusts db.products (cartDeltas (allItems gs)) := by
  induction gs with
  | nil => intro db; simp [processGroups, allItems, cartDeltas, applyAdjusts]
  | cons g rest ih =>
    intro db
    simp only [processGroups, ih]
    rw [foldl_adjust_neg]
    rw [show allItems (g :: rest) = g.2 ++ allItems rest from rfl]
    rw [show cartDeltas (g.2 ++ allItems rest) =
      cartDeltas g.2 ++ cartDeltas (allItems rest) by simp [cartDeltas]]
    rw [applyAdjusts_append]

/-! ### Characterization of `groupCartItemsByVendor` -/

theorem mem_vendorKeys (v : String) :
    ∀ l : List CartItemWithProduct,
      v ∈ vendorKeys l ↔ ∃ it, it ∈ l ∧ it.product.vendorId = v := by
  intro l
  induction l with
  | nil => simp [vendorKeys]
  | cons x rest ih =>
    simp only [vendorKeys, List.mem_cons, List.mem_filter, ih]
    constructor
    · rintro (h | ⟨⟨it, hit, hv⟩, _⟩)
      · exact ⟨x, Or.inl rfl, h.symm⟩
      · exact ⟨it, Or.inr hit, hv⟩
    · rintro ⟨it, hit | hit, hv⟩
      · left; rw [hit] at hv; exact hv.symm
      · by_cases hx : v = x.product.vendorId
        · left; exact hx
        · right; exact ⟨⟨it, hit, hv⟩, by simpa using hx⟩

theorem vendorKeys_nodup : ∀ l : List CartItemWithProduct,
    (vendorKeys l).Nodup := by
  intro l
  induction l with
  | nil => simp [vendorKeys]
  | cons x rest ih =>
    refine List.Nodup.cons ?_ (List.Nodup.filter _ ih)
    intro hmem
    have := (List.mem_filter.mp hmem).2
    simp at this

theorem vendorKeys_append (l : List CartItemWithProduct)
    (x : CartItemWithProduct) :
    vendorKeys (l ++ [x]) =
      if x.product.vendorId ∈ vendorKeys l then vendorKeys l
      else vendorKeys l ++ [x.product.vendorId] := by
  induction l with
  | nil => simp [vendorKeys]
  | cons y rest ih =>
    have hcons : vendorKeys ((y :: rest) ++ [x]) =
        y.product.vendorId :: (vendorKeys (rest ++ [x])).filter
          (fun v => decide (v ≠ y.product.vendorId)) := rfl
    by_cases hmem : x.product.vendorId ∈ vendorKeys rest
    · have hmem2 : x.product.vendorId ∈ vendorKeys (y :: rest) := by
        rw [mem_vendorKeys] at hmem ⊢
        obtain ⟨it, hit, hv⟩ := hmem
        exact ⟨it, List.mem_cons_of_mem y hit, hv⟩
      rw [hcons, ih, if_pos hmem, if_pos hmem2]
      rfl
    · by_cases heq : x.product.vendorId = y.product.vendorId
      · have hmem2 : x.product.vendorId ∈ vendorKeys (y :: rest) := by
          simp only [vendorKeys, List.mem_cons]
          exact Or.inl heq
        rw [hcons, ih, if_neg hmem, if_pos hmem2, List.filter_append]
        simp [vendorKeys, heq]
      · have hmem2 : x.product.vendorId ∉ vendorKeys (y :: rest) := by
          intro hm
          simp only [vendorKeys, List.mem_cons, List.mem_filter] at hm
          rcases hm with h | ⟨h, _⟩
          · exact heq h
          · exact hmem h
        rw [hcons, ih, if_neg hmem, if_neg hmem2, List.filter_append]
        simp [vendorKeys, heq]

theorem vendorKeys_covers {l : List CartItemWithProduct}
    {it : CartItemWithProduct} (h : it ∈ l) :
    it.product.vendorId ∈ vendorKeys l :=
  (mem_vendorKeys _ l).mpr ⟨it, h, rfl⟩

theorem filter_vendor_eq_nil {l : List CartItemWithProduct} {v : String}
    (h : v ∉ vendorKeys l) :
    l.filter (fun it => decide (it.product.vendorId = v)) = [] := by
  rw [List.filter_eq_nil_iff]
  intro it hit
  simp only [decide_eq_true_eq]
  intro hv
  exact h ((mem_vendorKeys v l).mpr ⟨it, hit, hv⟩)

theorem insertByVendor_groupsOf (l : List CartItemWithProduct)
    (x : CartItemWithProduct) :
    insertByVendor (groupsOf l) x = groupsOf (l ++ [x]) := by
  have hany : ((groupsOf l).any
      (fun g => decide (g.1 = x.product.vendorId)) = true) ↔
      x.product.vendorId ∈ vendorKeys l := by
    simp [groupsOf, List.any_map, List.any_eq_true, Function.comp]
  by_cases hmem : x.product.vendorId ∈ vendorKeys l
  · simp only [insertByVendor]
    rw [if_pos (hany.mpr hmem)]
    simp only [groupsOf]
    rw [vendorKeys_append, if_pos hmem, List.map_map]
    refine congrArg (fun f => List.map f (vendorKeys l)) (funext fun w => ?_)
    by_cases hw : w = x.product.vendorId
    · simp [Function.comp, hw, List.filter_append]
    · have hw2 : ¬ x.product.vendorId = w := fun h => hw h.symm
      simp [Function.comp, hw, hw2, List.filter_append]
  · simp only [insertByVendor]
    rw [if_neg (fun h => hmem (hany.mp h))]
    simp only [groupsOf]
    rw [vendorKeys_append, if_neg hmem, List.map_append]
    congr 1
    · refine List.map_congr_left (fun w hwks => ?_)
      have hw2 : ¬ x.product.vendorId = w := by
        intro h; rw [h] at hmem; exact hmem hwks
      simp [List.filter_append, hw2]
    · simp [List.filter_append, filter_vendor_eq_nil hmem]

theorem groupCartItemsByVendor_eq (l : List CartItemWithProduct) :
    groupCartItemsByVendor l = groupsOf l := by
  induction l using List.reverseRecOn with
  | nil => rfl
  | append_singleton l x ih =>
    rw [groupCartItemsByVendor, List.foldl_append]
    rw [show List.foldl insertByVendor [] l = groupCartItemsByVendor l from rfl]
    rw [ih, List.foldl_cons, List.foldl_nil, insertByVendor_groupsOf]

/-! ### Quantity sums -/

theorem sumQty_nil (pid : String) : sumQty pid [] = 0 := rfl

theorem sumQty_cons (pid : String) (x : CartItemWithProduct)
    (l : List CartItemWithProduct) :
    sumQty pid (x :: l) =
      (if x.productId = pid then x.quantity else 0) + sumQty pid l := by
  simp [sumQty]

theorem sumQty_append (pid : String) (l1 l2 : List CartItemWithProduct) :
    sumQty pid (l1 ++ l2) = sumQty pid l1 + sumQty pid l2 := by
  simp [sumQty]

theorem listSum_map_add (ks : List String) (f g : String → Nat) :
    (ks.map (fun w => f w + g w)).sum = (ks.map f).sum + (ks.map g).sum := by
  induction ks with
  | nil => simp
  | cons k ks ih => simp only [List.map_cons, List.sum_cons, ih]; omega

theorem sum_if_eq {c : Nat} {a : String} :
    ∀ ks : List String, ks.Nodup → a ∈ ks →
      (ks.map (fun w => if a = w then c else 0)).sum = c := by
  intro ks
  induction ks with
  | nil => intro _ hmem; cases hmem
  | cons k ks ih =>
    intro hnd hmem
    rcases List.mem_cons.mp hmem with h | h
    · subst h
      simp only [List.map_cons, List.sum_cons, if_pos rfl]
      have hz : ∀ w ∈ ks, (if a = w then c else 0) = 0 := by
        intro w hw
        have : ¬ a = w := fun hh => (List.nodup_cons.mp hnd).1 (hh ▸ hw)
        simp [this]
      rw [List.map_congr_left hz]
      simp
    · have hak : ¬ a = k := fun hh => (List.nodup_cons.mp hnd).1 (hh ▸ h)
      simp only [List.map_cons, List.sum_cons, if_neg hak, Nat.zero_add]
      exact ih (List.nodup_cons.mp hnd).2 h

theorem sum_over_keys (pid : String) (ks : List String) (hnd : ks.Nodup) :
    ∀ l : List CartItemWithProduct,
      (∀ it ∈ l, it.product.vendorId ∈ ks) →
      (ks.map (fun v => sumQty pid
        (l.filter (fun it => decide (it.product.vendorId = v))))).sum =
        sumQty pid l := by
  intro l
  induction l with
  | nil =>
    intro _
    have hz : ∀ v ∈ ks, sumQty pid
        (([] : List CartItemWithProduct).filter
          (fun it => decide (it.product.vendorId = v))) = 0 := by
      intro v _; rfl
    rw [List.map_congr_left hz]
    simp [sumQty]
  | cons x rest ih =>
    intro hcov
    have hx : x.product.vendorId ∈ ks := hcov x (List.mem_cons_self x rest)
    have hrest : ∀ it ∈ rest, it.product.vendorId ∈ ks :=
      fun it hit => hcov it (List.mem_cons_of_mem x hit)
    have hsum : ∀ v ∈ ks, sumQty pid
        ((x :: rest).filter (fun it => decide (it.product.vendorId = v))) =
        (if x.product.vendorId = v then
          (if x.productId = pid then x.quantity else 0) else 0) +
          sumQty pid (rest.filter (fun it => decide (it.product.vendorId = v))) := by
      intro v _
      by_cases h : x.product.vendorId = v
      · simp [List.filter_cons, h, sumQty_cons]
      · simp [List.filter_cons, h]
    rw [List.map_congr_left hsum, listSum_map_add, sum_if_eq ks hnd hx,
      ih hrest, sumQty_cons]

theorem allItems_map_sum (pid : String) (l : List CartItemWithProduct) :
    ∀ ks : List String,
      sumQty pid (allItems (ks.map (fun v =>
        (v, l.filter (fun it => decide (it.product.vendorId = v)))))) =
      (ks.map (fun v => sumQty pid
        (l.filter (fun it => decide (it.product.vendorId = v))))).sum := by
  intro ks
  induction ks with
  | nil => rfl
  | cons k ks ih =>
    simp only [List.map_cons, allItems, sumQty_append, ih, List.sum_cons]

/-- Regrouping the cart by vendor does not change any product's total
purchased quantity. -/
theorem sumQty_groupsOf (pid : String) (l : List CartItemWithProduct) :
    sumQty pid (allItems (groupsOf l)) = sumQty pid l := by
  rw [groupsOf, allItems_map_sum]
  exact sum_over_keys pid _ (vendorKeys_nodup l) l
    (fun it hit => vendorKeys_covers hit)

theorem netDelta_cartDeltas (pid : String)
    (items : List CartItemWithProduct) :
    netDelta pid (cartDeltas items) = -(sumQty pid items : Int) := by
  induction items with
  | nil => simp [netDelta, cartDeltas, sumQty]
  | cons x rest ih =>
    rw [show cartDeltas (x :: rest) =
      (x.productId, -(x.quantity : Int)) :: cartDeltas rest from rfl]
    rw [netDelta_cons, sumQty_cons, ih]
    by_cases h : x.productId = pid
    · simp only [if_pos h]; push_cast; ring
    · simp only [if_neg h]; push_cast; ring

theorem netDelta_itemDeltas (pid : String) (oid : Nat)
    (items : List CartItemWithProduct) :
    netDelta pid (itemDeltas (mkOrderItems oid items)) =
      (sumQty pid items : Int) := by
  induction items with
  | nil => simp [netDelta, itemDeltas, mkOrderItems, sumQty]
  | cons x rest ih =>
    rw [show itemDeltas (mkOrderItems oid (x :: rest)) =
      (x.productId, (x.quantity : Int)) ::
        itemDeltas (mkOrderItems oid rest) from rfl]
    rw [netDelta_cons, sumQty_cons, ih]
    by_cases h : x.productId = pid
    · simp only [if_pos h]; push_cast; ring
    · simp only [if_neg h]; push_cast; ring

/-! ### The cart join -/

theorem joinCartItem_fields {db : DB} {ci : CartItem}
    {it : CartItemWithProduct} (h : joinCartItem db ci = some it) :
    it.userId = ci.userId ∧ it.productId = ci.productId ∧
      it.quantity = ci.quantity ∧ findProduct db ci.productId = some it.product := by
  unfold joinCartItem at h
  rcases Option.bind_eq_some.mp h with ⟨p, hp, hmap⟩
  rcases Option.map_eq_some'.mp hmap with ⟨v, hv, heq⟩
  cases heq
  exact ⟨rfl, rfl, rfl, hp⟩

theorem joinAll_forall2 {db : DB} :
    ∀ {l : List CartItem} {r : List CartItemWithProduct},
      joinAll db l = some r →
      List.Forall₂ (fun ci it => joinCartItem db ci = some it) l r := by
  intro l
  induction l with
  | nil =>
    intro r h
    rw [joinAll] at h
    injection h with h2
    subst h2
    exact List.Forall₂.nil
  | cons ci rest ih =>
    intro r h
    rw [joinAll] at h
    cases hj : joinCartItem db ci with
    | none => rw [hj] at h; cases h
    | some it =>
      rw [hj] at h
      cases hr : joinAll db rest with
      | none => rw [hr] at h; cases h
      | some its =>
        rw [hr] at h
        injection h with h2
        subst h2
        exact List.Forall₂.cons hj (ih hr)

/-- The joined cart has the same per-product quantities as the raw cart
rows it came from. -/
theorem forall2_sumQty {db : DB} {l : List CartItem}
    {r : List CartItemWithProduct}
    (h : List.Forall₂ (fun ci it => joinCartItem db ci = some it) l r)
    (pid : String) :
    sumQty pid r =
      (l.map (fun ci => if ci.productId = pid then ci.quantity else 0)).sum := by
  induction h with
  | nil => rfl
  | @cons ci it l2 r2 hj _ ih =>
    obtain ⟨_, hpid, hq, _⟩ := joinCartItem_fields hj
    rw [sumQty_cons, hpid, hq, List.map_cons, List.sum_cons, ih]

/-! ### Validation -/

theorem validateCartItems_ok {l : List CartItemWithProduct} :
    validateCartItems l = .ok () → ∀ it ∈ l,
      it.product.isActive = true ∧ it.vendor.isApproved = true ∧
      (it.quantity : Int) ≤ it.product.stock := by
  induction l with
  | nil => intro _ it hit; exact absurd hit (List.not_mem_nil it)
  | cons x rest ih =>
    intro h it hit
    have hstep : x.product.isActive = true ∧ x.vendor.isApproved = true ∧
        ¬((x.quantity : Int) > x.product.stock) ∧
        validateCartItems rest = .ok () := by
      by_cases hb1 : x.product.isActive = true
      · by_cases hb2 : x.vendor.isApproved = true
        · by_cases h3 : (x.quantity : Int) > x.product.stock
          · exfalso; simp only [validateCartItems, hb1, hb2, h3] at h
            simp at h
          · refine ⟨hb1, hb2, h3, ?_⟩
            simpa [validateCartItems, hb1, hb2, h3] using h
        · exfalso; simp only [validateCartItems, hb1, hb2] at h
          simp [Bool.not_eq_true] at hb2
          simp [hb2] at h
      · exfalso
        simp [Bool.not_eq_true] at hb1
        simp [validateCartItems, hb1] at h
    rcases List.mem_cons.mp hit with he | he
    · subst he
      exact ⟨hstep.1, hstep.2.1, le_of_not_lt hstep.2.2.1⟩
    · exact ih hstep.2.2.2 it he

theorem validateCartItems_badRequest {l : List CartItemWithProduct} :
    ∀ {e : Err}, validateCartItems l = .error e → ∃ m, e = .BAD_REQUEST m := by
  induction l with
  | nil => intro e h; cases h
  | cons x rest ih =>
    intro e h
    by_cases hb1 : x.product.isActive = true
    · by_cases hb2 : x.vendor.isApproved = true
      · by_cases h3 : (x.quantity : Int) > x.product.stock
        · simp only [validateCartItems, hb1, hb2, h3] at h
          simp at h
          exact ⟨_, h.symm⟩
        · simp only [validateCartItems, hb1, hb2, h3] at h
          simp at h
          exact ih h
      · simp only [validateCartItems, hb1] at h
        simp [Bool.not_eq_true] at hb2
        simp [hb2] at h
        exact ⟨_, h.symm⟩
    · simp [Bool.not_eq_true] at hb1
      simp [validateCartItems, hb1] at h
      exact ⟨_, h.symm⟩

/-! ### Characterization of `createOrder` -/

/-- The state after a successful checkout of the joined cart `cart`. -/
def afterCreate (u a : String) (db : DB) (cart : List CartItemWithProduct) :
    DB :=
  ⟨db.vendors,
   applyAdjusts db.products (cartDeltas (allItems (groupsOf cart))),
   db.categories,
   db.cartItems.filter (fun ci => !decide (ci.userId = u)),
   db.orders ++ groupOrders u a (groupsOf cart) db.nextOrderId,
   db.orderItems ++ groupOrderItems (groupsOf cart) db.nextOrderId,
   db.nextOrderId + (groupsOf cart).length⟩

theorem createOrderTx_empty {u a : String} {db : DB}
    (hl : loadCartItems db u = some []) :
    createOrderTx u a db = .error (.BAD_REQUEST "Your cart is empty") := by
  simp [createOrderTx, hl]

theorem createOrderTx_validate_error {u a : String} {db : DB}
    {cart : List CartItemWithProduct} {e : Err}
    (hl : loadCartItems db u = some cart) (hne : cart.length ≠ 0)
    (hv : validateCartItems cart = .error e) :
    createOrderTx u a db = .error e := by
  simp only [createOrderTx, hl, if_neg hne, hv]

theorem createOrderTx_ok {u a : String} {db : DB} {os : List Order} {db2 : DB}
    (h : createOrderTx u a db = .ok (os, db2)) :
    ∃ cart, loadCartItems db u = some cart ∧ cart ≠ [] ∧
      validateCartItems cart = .ok () ∧
      os = groupOrders u a (groupsOf cart) db.nextOrderId ∧
      db2 = afterCreate u a db cart := by
  unfold createOrderTx at h
  split at h
  · cases h
  · rename_i cart hl
    split at h
    · cases h
    · rename_i hlen
      split at h
      · cases h
      · rename_i val hv
        cases val
        simp only [Except.ok.injEq, Prod.mk.injEq] at h
        obtain ⟨ha, hb⟩ := h
        refine ⟨cart, hl, fun hc => hlen (by rw [hc]; rfl), hv, ?_, ?_⟩
        · rw [← ha, processGroups_fst, groupCartItemsByVendor_eq]
        · rw [← hb]
          have hpg : (processGroups u a (groupCartItemsByVendor cart) db).2 =
              ⟨db.vendors,
               applyAdjusts db.products
                 (cartDeltas (allItems (groupsOf cart))),
               db.categories, db.cartItems,
               db.orders ++ groupOrders u a (groupsOf cart) db.nextOrderId,
               db.orderItems ++ groupOrderItems (groupsOf cart) db.nextOrderId,
               db.nextOrderId + (groupsOf cart).length⟩ := by
            ext1
            · exact processGroups_vendors u a _ db
            · rw [processGroups_products, groupCartItemsByVendor_eq]
            · exact processGroups_categories u a _ db
            · exact processGroups_cartItems u a _ db
            · rw [processGroups_orders, groupCartItemsByVendor_eq]
            · rw [processGroups_orderItems, groupCartItemsByVendor_eq]
            · rw [processGroups_nextOrderId, groupCartItemsByVendor_eq]
          rw [hpg]
          rfl

/-- Every `createOrder` call either rolls back (errors) or commits the
checkout of the loaded cart. -/
theorem createOrder_cases (u a : String) (db : DB) :
    ((createOrder u a db).2 = db ∧ ∃ e, (createOrder u a db).1 = .error e) ∨
    ∃ cart, loadCartItems db u = some cart ∧ cart ≠ [] ∧
      validateCartItems cart = .ok () ∧
      createOrder u a db =
        (.ok (groupOrders u a (groupsOf cart) db.nextOrderId),
         afterCreate u a db cart) := by
  unfold createOrder
  cases ht : createOrderTx u a db with
  | error e => exact Or.inl ⟨rfl, e, rfl⟩
  | ok p =>
    obtain ⟨os, db2⟩ := p
    obtain ⟨cart, hl, hne, hv, hos, hdb2⟩ := createOrderTx_ok ht
    exact Or.inr ⟨cart, hl, hne, hv, by rw [hos, hdb2]⟩

theorem createOrder_ok {u a : String} {db : DB} {os : List Order} {db2 : DB}
    (h : createOrder u a db = (.ok os, db2)) :
    ∃ cart, loadCartItems db u = some cart ∧ cart ≠ [] ∧
      validateCartItems cart = .ok () ∧
      os = groupOrders u a (groupsOf cart) db.nextOrderId ∧
      db2 = afterCreate u a db cart := by
  rcases createOrder_cases u a db with ⟨_, e, he⟩ | ⟨cart, hl, hne, hv, heq⟩
  · rw [h] at he; cases he
  · rw [h] at heq
    injection heq with h1 h2
    injection h1 with h1
    exact ⟨cart, hl, hne, hv, h1, h2⟩

/-! ### C1: invalid carts abort the checkout with BadRequest, unchanged -/

/-- C1: `createOrder` fails with `BAD_REQUEST` and leaves the state
untouched whenever the caller's cart is empty, or some cart line has an
inactive product, an unapproved vendor, or a quantity above the product's
current stock; validation covers the whole cart before any mutation, so
one invalid line aborts the entire checkout. -/
theorem claim1_createOrder_invalid_fails {u a : String} {db : DB}
    {cart : List CartItemWithProduct}
    (hl : loadCartItems db u = some cart)
    (hbad : cart = [] ∨ ∃ it ∈ cart,
      it.product.isActive = false ∨ it.vendor.isApproved = false ∨
      (it.quantity : Int) > it.product.stock) :
    ∃ m, createOrder u a db = (.error (.BAD_REQUEST m), db) := by
  rcases hbad with hnil | ⟨it, hit, hbad⟩
  · subst hnil
    refine ⟨"Your cart is empty", ?_⟩
    unfold createOrder
    rw [createOrderTx_empty hl]
  · have hne : cart.length ≠ 0 := by
      intro h0
      rw [List.length_eq_zero] at h0
      subst h0
      cases hit
    cases hv : validateCartItems cart with
    | ok val =>
      cases val
      exfalso
      obtain ⟨h1, h2, h3⟩ := validateCartItems_ok hv it hit
      rcases hbad with hb | hb | hb
      · rw [h1] at hb; cases hb
      · rw [h2] at hb; cases hb
      · exact absurd h3 (not_le.mpr hb)
    | error e =>
      obtain ⟨m, hm⟩ := validateCartItems_badRequest hv
      subst hm
      refine ⟨m, ?_⟩
      unfold createOrder
      rw [createOrderTx_validate_error hl hne hv]

/-- An example state with an empty cart, used to witness C1. -/
def exDb1 : DB := ⟨[], [], [], [], [], [], 0⟩

theorem claim1_witness :
    loadCartItems exDb1 "u" = some [] ∧
    ∃ m, createOrder "u" "123 Example Street" exDb1 =
      (.error (.BAD_REQUEST m), exDb1) :=
  ⟨rfl, claim1_createOrder_invalid_fails rfl (Or.inl rfl)⟩

/-! ### C2: stock conservation -/

theorem forall2_mem_left {α β : Type} {R : α → β → Prop} {l : List α}
    {r : List β} (h : List.Forall₂ R l r) :
    ∀ a ∈ l, ∃ b ∈ r, R a b := by
  induction h with
  | nil => intro a ha; cases ha
  | @cons x y l2 r2 hxy _ ih =>
    intro a ha
    rcases List.mem_cons.mp ha with he | he
    · exact ⟨y, List.mem_cons_self y r2, he ▸ hxy⟩
    · obtain ⟨b, hb, hr⟩ := ih a he
      exact ⟨b, List.mem_cons_of_mem y hb, hr⟩

theorem findProduct_of_nodup {db : DB} {p : Product} (hp : p ∈ db.products)
    (hnd : (db.products.map (fun q => q.id)).Nodup) :
    findProduct db p.id = some p := by
  unfold findProduct
  revert hp hnd
  induction db.products with
  | nil => intro hp _; cases hp
  | cons q rest ih =>
    intro hp hnd
    rw [List.map_cons] at hnd
    have hnd2 := List.nodup_cons.mp hnd
    rcases List.mem_cons.mp hp with he | he
    · subst he
      exact List.find?_cons_of_pos rest (by simp)
    · have hqid : ¬ q.id = p.id := by
        intro hid
        have : p.id ∈ rest.map (fun r => r.id) :=
          List.mem_map.mpr ⟨p, he, rfl⟩
        exact hnd2.1 (hid ▸ this)
      rw [List.find?_cons_of_neg rest (by simp [hqid])]
      exact ih he hnd2.2

/-- With unique product ids per user cart (the `(userId, productId)` unique
constraint), the purchased quantity of a product is either zero or the
quantity of its single cart line. -/
theorem purchased_single {l : List CartItem}
    (hnd : (l.map (fun ci => ci.productId)).Nodup) (pid : String) :
    (l.map (fun ci => if ci.productId = pid then ci.quantity else 0)).sum = 0 ∨
    ∃ ci ∈ l, ci.productId = pid ∧
      (l.map (fun ci => if ci.productId = pid then ci.quantity else 0)).sum =
        ci.quantity := by
  induction l with
  | nil => exact Or.inl rfl
  | cons x rest ih =>
    rw [List.map_cons] at hnd
    have hnd2 := List.nodup_cons.mp hnd
    by_cases hx : x.productId = pid
    · right
      have hz : ∀ ci ∈ rest, (if ci.productId = pid then ci.quantity else 0) = 0 := by
        intro ci hci
        have : ¬ ci.productId = pid := by
          intro he
          exact hnd2.1 (by rw [hx, ← he]; exact List.mem_map.mpr ⟨ci, hci, rfl⟩)
        simp [this]
      refine ⟨x, List.mem_cons_self x rest, hx, ?_⟩
      rw [List.map_cons, List.sum_cons, if_pos hx, List.map_congr_left hz]
      simp
    · rw [List.map_cons, List.sum_cons, if_neg hx, Nat.zero_add]
      rcases ih hnd2.2 with h | ⟨ci, hci, hcp, hs⟩
      · exact Or.inl h
      · exact Or.inr ⟨ci, List.mem_cons_of_mem x hci, hcp, hs⟩

/-- C2: a successful checkout decrements every product's stock by exactly
the quantity purchased for it, and (with per-line sufficiency validated in
the same transaction) no stock goes negative. -/
theorem claim2_stock_conservation {u a : String} {db : DB}
    {os : List Order} {db2 : DB}
    (h : createOrder u a db = (.ok os, db2))
    (hpid : (db.products.map (fun p => p.id)).Nodup)
    (hcart : ((userCart db u).map (fun ci => ci.productId)).Nodup)
    (hstock : ∀ p ∈ db.products, 0 ≤ p.stock) :
    db2.products = db.products.map (fun p =>
      { p with stock := p.stock - (purchasedQty db u p.id : Int) }) ∧
    ∀ p ∈ db2.products, 0 ≤ p.stock := by
  obtain ⟨cart, hl, hne, hv, hos, hdb2⟩ := createOrder_ok h
  have hf2 : List.Forall₂ (fun ci it => joinCartItem db ci = some it)
      (userCart db u) cart := joinAll_forall2 hl
  have hsum : ∀ pid, sumQty pid cart = purchasedQty db u pid :=
    fun pid => forall2_sumQty hf2 pid
  have hprod : db2.products = db.products.map (fun p =>
      { p with stock := p.stock - (purchasedQty db u p.id : Int) }) := by
    rw [hdb2]
    simp only [afterCreate]
    rw [applyAdjusts_eq_map]
    refine congrArg (fun f => List.map f db.products) (funext fun p => ?_)
    rw [netDelta_cartDeltas, sumQty_groupsOf, hsum p.id]
    rfl
  refine ⟨hprod, ?_⟩
  intro p' hp'
  rw [hprod] at hp'
  obtain ⟨p, hp, he⟩ := List.mem_map.mp hp'
  subst he
  show (0 : Int) ≤ p.stock - (purchasedQty db u p.id : Int)
  rcases purchased_single hcart p.id with hz | ⟨ci, hci, hcp, hs⟩
  · rw [show purchasedQty db u p.id =
      ((userCart db u).map (fun ci =>
        if ci.productId = p.id then ci.quantity else 0)).sum from rfl, hz]
    simpa using hstock p hp
  · rw [show purchasedQty db u p.id =
      ((userCart db u).map (fun ci =>
        if ci.productId = p.id then ci.quantity else 0)).sum from rfl, hs]
    obtain ⟨it, hit, hj⟩ := forall2_mem_left hf2 ci hci
    obtain ⟨_, hjp, hjq, hjfind⟩ := joinCartItem_fields hj
    have hple : (it.quantity : Int) ≤ it.product.stock :=
      (validateCartItems_ok hv it hit).2.2
    have hfp : findProduct db p.id = some p := findProduct_of_nodup hp hpid
    rw [hcp] at hjfind
    rw [hfp] at hjfind
    injection hjfind with hpe
    rw [hjq, ← hpe] at hple
    omega

/-- An example state for the C2 witness: one approved vendor, one product
with stock 5 and price 10, one cart line for quantity 2. -/
def exDb2 : DB :=
  ⟨[⟨"v1", "vu", true⟩],
   [⟨"p1", "v1", "Widget", "An example widget", 10, 5, true, "c1"⟩],
   ["c1"],
   [⟨"cu", "p1", 2⟩],
   [], [], 0⟩

/-- The single order created by the C2 witness checkout. -/
def exOrder2 : Order := ⟨0, "cu", "v1", "12 Example Street 99", 20, .PENDING⟩

/-- The state after the C2 witness checkout. -/
def exDb2after : DB :=
  ⟨[⟨"v1", "vu", true⟩],
   [⟨"p1", "v1", "Widget", "An example widget", 10, 3, true, "c1"⟩],
   ["c1"], [], [exOrder2], [⟨0, "p1", 2, 10⟩], 1⟩

theorem claim2_witness :
    createOrder "cu" "12 Example Street 99" exDb2 =
      (.ok [exOrder2], exDb2after) ∧
    (exDb2after.products = exDb2.products.map (fun p =>
      { p with stock := p.stock - (purchasedQty exDb2 "cu" p.id : Int) }) ∧
    ∀ p ∈ exDb2after.products, 0 ≤ p.stock) :=
  ⟨by rfl,
   claim2_stock_conservation (by rfl) (by decide) (by decide) (by decide)⟩

/-! ### C3: vendor partition -/

theorem forall2_mem_right {α β : Type} {R : α → β → Prop} {l : List α}
    {r : List β} (h : List.Forall₂ R l r) :
    ∀ b ∈ r, ∃ a ∈ l, R a b := by
  induction h with
  | nil => intro b hb; cases hb
  | @cons x y l2 r2 hxy _ ih =>
    intro b hb
    rcases List.mem_cons.mp hb with he | he
    · exact ⟨x, List.mem_cons_self x l2, he ▸ hxy⟩
    · obtain ⟨a2, ha2, hr⟩ := ih b he
      exact ⟨a2, List.mem_cons_of_mem x ha2, hr⟩

theorem groupOrders_map_vendorId (u a : String) :
    ∀ (gs : List (String × List CartItemWithProduct)) (n : Nat),
      (groupOrders u a gs n).map (fun o => o.vendorId) =
        gs.map (fun g => g.1) := by
  intro gs
  induction gs with
  | nil => intro n; rfl
  | cons g rest ih => intro n; simp [groupOrders, mkOrder, ih]

theorem groupOrders_id_bound (u a : String) :
    ∀ (gs : List (String × List CartItemWithProduct)) (n : Nat),
      ∀ o ∈ groupOrders u a gs n, n ≤ o.id := by
  intro gs
  induction gs with
  | nil => intro n o ho; cases ho
  | cons g rest ih =>
    intro n o ho
    rcases List.mem_cons.mp ho with he | he
    · subst he; exact Nat.le_refl n
    · exact Nat.le_of_succ_le (ih (n + 1) o he)

theorem groupOrderItems_id_bound :
    ∀ (gs : List (String × List CartItemWithProduct)) (n : Nat),
      ∀ oi ∈ groupOrderItems gs n, n ≤ oi.orderId := by
  intro gs
  induction gs with
  | nil => intro n oi hoi; cases hoi
  | cons g rest ih =>
    intro n oi hoi
    rcases List.mem_append.mp hoi with he | he
    · obtain ⟨it, _, heq⟩ := List.mem_map.mp he
      exact le_of_eq (by rw [← heq])
    · exact Nat.le_of_succ_le (ih (n + 1) oi he)

@[simp] theorem mkOrder_id (u a : String) (oid : Nat)
    (g : String × List CartItemWithProduct) : (mkOrder u a oid g).id = oid :=
  rfl

@[simp] theorem mkOrder_userId (u a : String) (oid : Nat)
    (g : String × List CartItemWithProduct) : (mkOrder u a oid g).userId = u :=
  rfl

@[simp] theorem mkOrder_vendorId (u a : String) (oid : Nat)
    (g : String × List CartItemWithProduct) :
    (mkOrder u a oid g).vendorId = g.1 :=
  rfl

@[simp] theorem mkOrder_total (u a : String) (oid : Nat)
    (g : String × List CartItemWithProduct) :
    (mkOrder u a oid g).total = orderTotal g.2 :=
  rfl

@[simp] theorem mkOrder_status (u a : String) (oid : Nat)
    (g : String × List CartItemWithProduct) :
    (mkOrder u a oid g).status = .PENDING :=
  rfl

/-- Each order created by `processGroups` comes from one group, and the
order items carrying its id are exactly that group's items. -/
theorem groupOrders_items (u a : String) :
    ∀ (gs : List (String × List CartItemWithProduct)) (n : Nat),
      ∀ o ∈ groupOrders u a gs n, ∃ g ∈ gs, o = mkOrder u a o.id g ∧
        (groupOrderItems gs n).filter (fun oi => decide (oi.orderId = o.id)) =
          mkOrderItems o.id g.2 := by
  intro gs
  induction gs with
  | nil => intro n o ho; cases ho
  | cons g rest ih =>
    intro n o ho
    rcases List.mem_cons.mp ho with he | he
    · have hid : o.id = n := by rw [he, mkOrder_id]
      refine ⟨g, List.mem_cons_self g rest, by rw [hid, ← he], ?_⟩
      rw [show groupOrderItems (g :: rest) n =
        mkOrderItems n g.2 ++ groupOrderItems rest (n + 1) from rfl]
      rw [List.filter_append]
      have h1 : (mkOrderItems n g.2).filter
          (fun oi => decide (oi.orderId = o.id)) = mkOrderItems n g.2 := by
        rw [List.filter_eq_self]
        intro oi hoi
        obtain ⟨it, _, heq⟩ := List.mem_map.mp hoi
        rw [← heq]
        simp [hid]
      have h2 : (groupOrderItems rest (n + 1)).filter
          (fun oi => decide (oi.orderId = o.id)) = [] := by
        rw [List.filter_eq_nil_iff]
        intro oi hoi
        have := groupOrderItems_id_bound rest (n + 1) oi hoi
        simp only [decide_eq_true_eq]
        omega
      rw [h1, h2, List.append_nil, hid]
    · obtain ⟨g2, hg2, ho2, hfilter⟩ := ih (n + 1) o he
      have hbound : n + 1 ≤ o.id := groupOrders_id_bound u a rest (n + 1) o he
      refine ⟨g2, List.mem_cons_of_mem g hg2, ho2, ?_⟩
      rw [show groupOrderItems (g :: rest) n =
        mkOrderItems n g.2 ++ groupOrderItems rest (n + 1) from rfl]
      rw [List.filter_append, hfilter]
      have h1 : (mkOrderItems n g.2).filter
          (fun oi => decide (oi.orderId = o.id)) = [] := by
        rw [List.filter_eq_nil_iff]
        intro oi hoi
        obtain ⟨it, _, heq⟩ := List.mem_map.mp hoi
        rw [← heq]
        simp only [decide_eq_true_eq]
        omega
      rw [h1, List.nil_append]

theorem foldl_add_shift {α : Type} (f : α → Int) :
    ∀ (l : List α) (c : Int),
      l.foldl (fun s it => s + f it) c = c + (l.map f).sum := by
  intro l
  induction l with
  | nil => intro c; simp
  | cons x rest ih =>
    intro c
    rw [List.foldl_cons, ih, List.map_cons, List.sum_cons]
    ring

theorem orderTotal_eq_items_sum (oid : Nat) (items : List CartItemWithProduct) :
    orderTotal items =
      ((mkOrderItems oid items).map
        (fun oi => oi.price * (oi.quantity : Int))).sum := by
  rw [orderTotal, foldl_add_shift, mkOrderItems, List.map_map]
  rw [Int.zero_add]
  refine congrArg List.sum ?_
  exact congrArg (fun f => List.map f items) (funext fun it => rfl)

/-- C3: a successful checkout of a valid non-empty cart creates exactly one
`PENDING` order per distinct vendor id of the cart; the order items of each
order are exactly its vendor's cart lines with the product's current price
snapshotted, and the order's total is the sum of price times quantity over
its own items. -/
theorem claim3_vendor_partition {u a : String} {db : DB}
    {os : List Order} {db2 : DB} {cart : List CartItemWithProduct}
    (h : createOrder u a db = (.ok os, db2))
    (hl : loadCartItems db u = some cart)
    (hfresh : ∀ oi ∈ db.orderItems, oi.orderId < db.nextOrderId) :
    (os.map (fun o => o.vendorId)).Nodup ∧
    (∀ v, v ∈ os.map (fun o => o.vendorId) ↔
      ∃ it ∈ cart, it.product.vendorId = v) ∧
    (∀ o ∈ os, o.status = .PENDING) ∧
    (∀ o ∈ os, orderItemsOf db2 o.id = mkOrderItems o.id
      (cart.filter (fun it => decide (it.product.vendorId = o.vendorId)))) ∧
    (∀ o ∈ os, o.total =
      ((orderItemsOf db2 o.id).map
        (fun oi => oi.price * (oi.quantity : Int))).sum) ∧
    (∀ o ∈ os, ∀ oi ∈ orderItemsOf db2 o.id,
      ∃ p, findProduct db oi.productId = some p ∧ oi.price = p.price) := by
  obtain ⟨cart2, hl2, hne, hv, hos, hdb2⟩ := createOrder_ok h
  rw [hl] at hl2
  injection hl2 with hl2
  subst hl2
  have hkeys : os.map (fun o => o.vendorId) = vendorKeys cart := by
    rw [hos, groupOrders_map_vendorId, groupsOf, List.map_map]
    have hcomp : ((fun g : String × List CartItemWithProduct => g.1) ∘
        (fun v => (v, cart.filter
          (fun it => decide (it.product.vendorId = v))))) = id :=
      funext fun v => rfl
    rw [hcomp, List.map_id]
  have hitems2 : db2.orderItems =
      db.orderItems ++ groupOrderItems (groupsOf cart) db.nextOrderId := by
    rw [hdb2]; rfl
  have hmain : ∀ o ∈ os, ∃ g ∈ groupsOf cart, o = mkOrder u a o.id g ∧
      orderItemsOf db2 o.id = mkOrderItems o.id g.2 := by
    intro o ho
    rw [hos] at ho
    obtain ⟨g, hg, ho2, hfilter⟩ :=
      groupOrders_items u a (groupsOf cart) db.nextOrderId o ho
    have hbound : db.nextOrderId ≤ o.id :=
      groupOrders_id_bound u a (groupsOf cart) db.nextOrderId o ho
    refine ⟨g, hg, ho2, ?_⟩
    rw [orderItemsOf, hitems2, List.filter_append, hfilter]
    have hold : db.orderItems.filter
        (fun oi => decide (oi.orderId = o.id)) = [] := by
      rw [List.filter_eq_nil_iff]
      intro oi hoi
      have := hfresh oi hoi
      simp only [decide_eq_true_eq]
      omega
    rw [hold, List.nil_append]
  have hgshape : ∀ g ∈ groupsOf cart,
      g.2 = cart.filter (fun it => decide (it.product.vendorId = g.1)) := by
    intro g hg
    obtain ⟨v, _, heq⟩ := List.mem_map.mp hg
    rw [← heq]
  refine ⟨?_, ?_, ?_, ?_, ?_, ?_⟩
  · rw [hkeys]; exact vendorKeys_nodup cart
  · intro v
    rw [hkeys]
    exact mem_vendorKeys v cart
  · intro o ho
    obtain ⟨g, _, ho2, _⟩ := hmain o ho
    rw [ho2]; rfl
  · intro o ho
    obtain ⟨g, hg, ho2, hoi⟩ := hmain o ho
    rw [hoi, hgshape g hg]
    have hvend : o.vendorId = g.1 := by rw [ho2]; rfl
    rw [hvend]
  · intro o ho
    obtain ⟨g, hg, ho2, hoi⟩ := hmain o ho
    rw [hoi]
    have htot : o.total = orderTotal g.2 := by rw [ho2]; rfl
    rw [htot, orderTotal_eq_items_sum o.id]
  · intro o ho oi hoi
    obtain ⟨g, hg, ho2, hitems⟩ := hmain o ho
    rw [hitems] at hoi
    obtain ⟨it, hit, heq⟩ := List.mem_map.mp hoi
    have hitcart : it ∈ cart := by
      have := hgshape g hg
      rw [this] at hit
      exact List.mem_of_mem_filter hit
    have hf2 : List.Forall₂ (fun ci it => joinCartItem db ci = some it)
        (userCart db u) cart := joinAll_forall2 hl
    obtain ⟨ci, _, hj⟩ := forall2_mem_right hf2 it hitcart
    obtain ⟨_, hjp, _, hjfind⟩ := joinCartItem_fields hj
    refine ⟨it.product, ?_, ?_⟩
    · rw [← heq]
      show findProduct db it.productId = some it.product
      rw [hjp, hjfind]
    · rw [← heq]

/-- The spec's concrete two-vendor scenario (§8): vendor V1 sells P1 at
price 10 with stock 5, vendor V2 sells P2 at price 5 with stock 1; the
cart holds P1 times 2 and P2 times 1. -/
def exDb3 : DB :=
  ⟨[⟨"v1", "vu1", true⟩, ⟨"v2", "vu2", true⟩],
   [⟨"p1", "v1", "Widget", "An example widget", 10, 5, true, "c1"⟩,
    ⟨"p2", "v2", "Gadget", "An example gadget", 5, 1, true, "c1"⟩],
   ["c1"],
   [⟨"cu", "p1", 2⟩, ⟨"cu", "p2", 1⟩],
   [], [], 0⟩

/-- The joined cart of `exDb3` for user `cu`. -/
def exCart3 : List CartItemWithProduct :=
  [⟨"cu", "p1", 2, ⟨"p1", "v1", "Widget", "An example widget", 10, 5, true, "c1"⟩,
    ⟨"v1", "vu1", true⟩⟩,
   ⟨"cu", "p2", 1, ⟨"p2", "v2", "Gadget", "An example gadget", 5, 1, true, "c1"⟩,
    ⟨"v2", "vu2", true⟩⟩]

/-- The two orders created by the C3 witness checkout, one per vendor. -/
def exOrders3 : List Order :=
  [⟨0, "cu", "v1", "12 Example Street 99", 20, .PENDING⟩,
   ⟨1, "cu", "v2", "12 Example Street 99", 5, .PENDING⟩]

/-- The state after the C3 witness checkout. -/
def exDb3after : DB :=
  ⟨[⟨"v1", "vu1", true⟩, ⟨"v2", "vu2", true⟩],
   [⟨"p1", "v1", "Widget", "An example widget", 10, 3, true, "c1"⟩,
    ⟨"p2", "v2", "Gadget", "An example gadget", 5, 0, true, "c1"⟩],
   ["c1"], [], exOrders3,
   [⟨0, "p1", 2, 10⟩, ⟨1, "p2", 1, 5⟩], 2⟩

theorem claim3_witness :
    ∃ os db2, createOrder "cu" "12 Example Street 99" exDb3 = (.ok os, db2) ∧
      ((os.map (fun o => o.vendorId)).Nodup ∧
       (∀ v, v ∈ os.map (fun o => o.vendorId) ↔
         ∃ it ∈ exCart3, it.product.vendorId = v) ∧
       (∀ o ∈ os, o.status = .PENDING) ∧
       (∀ o ∈ os, orderItemsOf db2 o.id = mkOrderItems o.id
         (exCart3.filter
           (fun it => decide (it.product.vendorId = o.vendorId)))) ∧
       (∀ o ∈ os, o.total =
         ((orderItemsOf db2 o.id).map
           (fun oi => oi.price * (oi.quantity : Int))).sum) ∧
       (∀ o ∈ os, ∀ oi ∈ orderItemsOf db2 o.id,
         ∃ p, findProduct exDb3 oi.productId = some p ∧ oi.price = p.price)) := by
  refine ⟨exOrders3, exDb3after, by rfl, ?_⟩
  exact @claim3_vendor_partition "cu" "12 Example Street 99" exDb3 exOrders3
    exDb3after exCart3 (by rfl) (by rfl) (by decide)

/-! ### Order lookup after a status write -/

theorem find?_map_of_pred {α : Type} (f : α → α) (p : α → Bool)
    (hp : ∀ o, p (f o) = p o) :
    ∀ l : List α, (l.map f).find? p = (l.find? p).map f := by
  intro l
  induction l with
  | nil => rfl
  | cons q rest ih =>
    rw [List.map_cons]
    by_cases h : p q = true
    · rw [List.find?_cons_of_pos _ (by rw [hp]; exact h),
        List.find?_cons_of_pos _ h]
      rfl
    · rw [List.find?_cons_of_neg _ (by rw [hp]; simpa using h),
        List.find?_cons_of_neg _ (by simpa using h), ih]

theorem find?_setOrderStatus (orders : List Order) (x : Nat)
    (st : OrderStatus) (oid : Nat) :
    (setOrderStatus orders x st).find? (fun o => decide (o.id = oid)) =
      (orders.find? (fun o => decide (o.id = oid))).map
        (fun o => if o.id = x then { o with status := st } else o) := by
  rw [setOrderStatus]
  refine find?_map_of_pred _ _ (fun o => ?_) orders
  by_cases h : o.id = x <;> simp [h]

theorem findOrder_id {db : DB} {oid : Nat} {o : Order}
    (h : findOrder db oid = some o) : o.id = oid := by
  have := List.find?_some h
  simpa using this

/-! ### C8: the cancelOrder contract -/

/-- C8: `cancelOrder` fails with `NOT_FOUND` for a missing order, with
`FORBIDDEN` for a caller who is not the order's customer, with
`BAD_REQUEST` when the status is neither `PENDING` nor `CONFIRMED`, and
otherwise cancels the order; every failure leaves the state unchanged. -/
theorem claim8_cancelOrder_contract (caller : String) (oid : Nat) (db : DB) :
    (findOrder db oid = none →
      ∃ m, cancelOrder caller oid db = (.error (.NOT_FOUND m), db)) ∧
    (∀ o, findOrder db oid = some o → o.userId ≠ caller →
      ∃ m, cancelOrder caller oid db = (.error (.FORBIDDEN m), db)) ∧
    (∀ o, findOrder db oid = some o → o.userId = caller →
      o.status ≠ .PENDING → o.status ≠ .CONFIRMED →
      ∃ m, cancelOrder caller oid db = (.error (.BAD_REQUEST m), db)) ∧
    (∀ o, findOrder db oid = some o → o.userId = caller →
      (o.status = .PENDING ∨ o.status = .CONFIRMED) →
      cancelOrder caller oid db =
        (.ok { o with status := .CANCELLED },
         { db with
            products := restoreStock db.products (orderItemsOf db oid),
            orders := setOrderStatus db.orders oid .CANCELLED })) := by
  refine ⟨?_, ?_, ?_, ?_⟩
  · intro h
    refine ⟨"Order not found", ?_⟩
    unfold cancelOrder
    rw [h]
  · intro o h hne
    refine ⟨"You can only cancel your own orders", ?_⟩
    unfold cancelOrder
    rw [h]
    dsimp only
    rw [if_pos hne]
  · intro o h he h1 h2
    refine ⟨s!"Cannot cancel order with status {o.status.toName}", ?_⟩
    unfold cancelOrder
    rw [h]
    dsimp only
    rw [if_neg (fun hn => hn he), if_pos ⟨h1, h2⟩]
  · intro o h he hst
    unfold cancelOrder
    rw [h]
    dsimp only
    rw [if_neg (fun hn => hn he), if_neg ?_]
    rintro ⟨h1, h2⟩
    rcases hst with hs | hs
    · exact h1 hs
    · exact h2 hs

/-- An example state for C8: a `PENDING` order 0 of customer `cu` and
vendor `v1`, a `SHIPPED` order 1 of the same customer. -/
def exDb8 : DB :=
  ⟨[⟨"v1", "vu", true⟩],
   [⟨"p1", "v1", "Widget", "An example widget", 10, 3, true, "c1"⟩],
   ["c1"], [],
   [⟨0, "cu", "v1", "addr", 20, .PENDING⟩,
    ⟨1, "cu", "v1", "addr", 10, .SHIPPED⟩],
   [⟨0, "p1", 2, 10⟩, ⟨1, "p1", 1, 10⟩], 2⟩

theorem claim8_witness :
    (∃ m, cancelOrder "cu" 7 exDb8 = (.error (.NOT_FOUND m), exDb8)) ∧
    (∃ m, cancelOrder "mallory" 0 exDb8 = (.error (.FORBIDDEN m), exDb8)) ∧
    (∃ m, cancelOrder "cu" 1 exDb8 = (.error (.BAD_REQUEST m), exDb8)) ∧
    cancelOrder "cu" 0 exDb8 =
      (.ok ⟨0, "cu", "v1", "addr", 20, .CANCELLED⟩,
       { exDb8 with
          products := restoreStock exDb8.products (orderItemsOf exDb8 0),
          orders := setOrderStatus exDb8.orders 0 .CANCELLED }) :=
  ⟨(claim8_cancelOrder_contract "cu" 7 exDb8).1 rfl,
   (claim8_cancelOrder_contract "mallory" 0 exDb8).2.1
     ⟨0, "cu", "v1", "addr", 20, .PENDING⟩ rfl (by decide),
   (claim8_cancelOrder_contract "cu" 1 exDb8).2.2.1
     ⟨1, "cu", "v1", "addr", 10, .SHIPPED⟩ rfl rfl (by decide) (by decide),
   (claim8_cancelOrder_contract "cu" 0 exDb8).2.2.2
     ⟨0, "cu", "v1", "addr", 20, .PENDING⟩ rfl rfl (Or.inl rfl)⟩

/-! ### C7: updateOrderStatus is vendor-only and ownership-checked -/

/-- C7: `updateOrderStatus` fails with `FORBIDDEN` when the caller has no
vendor profile, with `NOT_FOUND` when (for a vendor caller) the order does
not exist, and with `FORBIDDEN` when the caller's vendor does not own the
order; every failure leaves the state unchanged. -/
theorem claim7_updateOrderStatus_auth (caller : String) (oid : Nat)
    (s : OrderStatusInput) (db : DB) :
    (findVendorByUserId db caller = none →
      ∃ m, updateOrderStatus caller oid s db = (.error (.FORBIDDEN m), db)) ∧
    (∀ v, findVendorByUserId db caller = some v → findOrder db oid = none →
      ∃ m, updateOrderStatus caller oid s db = (.error (.NOT_FOUND m), db)) ∧
    (∀ v o, findVendorByUserId db caller = some v →
      findOrder db oid = some o → o.vendorId ≠ v.id →
      ∃ m, updateOrderStatus caller oid s db = (.error (.FORBIDDEN m), db)) := by
  refine ⟨?_, ?_, ?_⟩
  · intro h
    refine ⟨"You must be a vendor to perform this action", ?_⟩
    unfold updateOrderStatus
    rw [h]
  · intro v hv ho
    refine ⟨"Order not found", ?_⟩
    unfold updateOrderStatus
    rw [hv, ho]
  · intro v o hv ho hne
    refine ⟨"You can only update your own orders", ?_⟩
    unfold updateOrderStatus
    rw [hv, ho]
    dsimp only
    rw [if_pos hne]

/-- An example state for C7: vendor `v1` (user `vu1`) owns order 0; vendor
`v2` (user `vu2`) owns nothing; `nobody` has no vendor profile. -/
def exDb7 : DB :=
  ⟨[⟨"v1", "vu1", true⟩, ⟨"v2", "vu2", true⟩],
   [], [], [],
   [⟨0, "cu", "v1", "addr", 20, .PENDING⟩],
   [], 1⟩

theorem claim7_witness :
    (∃ m, updateOrderStatus "nobody" 0 .CONFIRMED exDb7 =
      (.error (.FORBIDDEN m), exDb7)) ∧
    (∃ m, updateOrderStatus "vu1" 5 .CONFIRMED exDb7 =
      (.error (.NOT_FOUND m), exDb7)) ∧
    (∃ m, updateOrderStatus "vu2" 0 .CONFIRMED exDb7 =
      (.error (.FORBIDDEN m), exDb7)) :=
  ⟨(claim7_updateOrderStatus_auth "nobody" 0 .CONFIRMED exDb7).1 rfl,
   (claim7_updateOrderStatus_auth "vu1" 5 .CONFIRMED exDb7).2.1
     ⟨"v1", "vu1", true⟩ rfl rfl,
   (claim7_updateOrderStatus_auth "vu2" 0 .CONFIRMED exDb7).2.2
     ⟨"v2", "vu2", true⟩ ⟨0, "cu", "v1", "addr", 20, .PENDING⟩ rfl rfl
     (by decide)⟩

/-! ### C6: transitions allowed from SHIPPED -/

/-- An example state with a `SHIPPED` order owned by vendor `v1`. -/
def exDb6 : DB :=
  ⟨[⟨"v1", "vu", true⟩], [], [], [],
   [⟨0, "cu", "v1", "addr", 10, .SHIPPED⟩], [], 1⟩

/-- C6 counterexample: the owning vendor CAN move a `SHIPPED` order back
to `CONFIRMED` — the source only guards the terminal source states
`CANCELLED` and `DELIVERED`, not the requested target. -/
theorem claim6_counterexample :
    (updateOrderStatus "vu" 0 .CONFIRMED exDb6).1 =
      .ok ⟨0, "cu", "v1", "addr", 10, .CONFIRMED⟩ ∧
    findOrder (updateOrderStatus "vu" 0 .CONFIRMED exDb6).2 0 =
      some ⟨0, "cu", "v1", "addr", 10, .CONFIRMED⟩ :=
  ⟨rfl, rfl⟩

/-- C6 amended: for an order in status `SHIPPED`, the owning vendor's
`updateOrderStatus` succeeds for every requested target status
(`CONFIRMED`, `SHIPPED`, `DELIVERED` and `CANCELLED`) — in particular
`SHIPPED → CONFIRMED` is accepted; only the terminal-source guard exists. -/
theorem claim6_shipped_transitions {caller : String} {oid : Nat} {db : DB}
    {v : Vendor} {o : Order}
    (hv : findVendorByUserId db caller = some v)
    (ho : findOrder db oid = some o)
    (hown : o.vendorId = v.id)
    (hs : o.status = .SHIPPED) :
    ∀ s : OrderStatusInput,
      (updateOrderStatus caller oid s db).1 =
        .ok { o with status := s.toStatus } ∧
      findOrder (updateOrderStatus caller oid s db).2 oid =
        some { o with status := s.toStatus } := by
  intro s
  have hfind : ∀ st : OrderStatus,
      (setOrderStatus db.orders oid st).find?
        (fun o2 => decide (o2.id = oid)) = some { o with status := st } := by
    intro st
    rw [find?_setOrderStatus]
    rw [show db.orders.find? (fun o2 => decide (o2.id = oid)) = some o from ho]
    rw [show Option.map (fun o2 => if o2.id = oid then { o2 with status := st }
      else o2) (some o) = some (if o.id = oid then { o with status := st }
      else o) from rfl]
    rw [if_pos (findOrder_id ho)]
  unfold updateOrderStatus
  rw [hv, ho]
  dsimp only
  rw [if_neg (fun hn => hn hown),
    if_neg (fun hc => by rw [hs] at hc; cases hc),
    if_neg (fun hc => by rw [hs] at hc; cases hc)]
  by_cases hsc : s = .CANCELLED
  · subst hsc
    rw [if_pos rfl]
    exact ⟨rfl, hfind .CANCELLED⟩
  · rw [if_neg hsc]
    exact ⟨rfl, hfind s.toStatus⟩

theorem claim6_amended_witness :
    (updateOrderStatus "vu" 0 .CONFIRMED exDb6).1 =
      .ok ⟨0, "cu", "v1", "addr", 10, .CONFIRMED⟩ ∧
    findOrder (updateOrderStatus "vu" 0 .CONFIRMED exDb6).2 0 =
      some ⟨0, "cu", "v1", "addr", 10, .CONFIRMED⟩ :=
  @claim6_shipped_transitions "vu" 0 exDb6 ⟨"v1", "vu", true⟩
    ⟨0, "cu", "v1", "addr", 10, .SHIPPED⟩ rfl rfl rfl rfl .CONFIRMED

/-! ### Frame lemmas for the four mutating operations -/

theorem find?_append_left {α : Type} {p : α → Bool} {l1 : List α} {a : α}
    (h : l1.find? p = some a) (l2 : List α) : (l1 ++ l2).find? p = some a := by
  induction l1 with
  | nil => cases h
  | cons x rest ih =>
    by_cases hx : p x = true
    · rw [List.find?_cons_of_pos _ hx] at h
      rw [List.cons_append, List.find?_cons_of_pos _ hx]
      exact h
    · rw [List.find?_cons_of_neg _ (by simpa using hx)] at h
      rw [List.cons_append, List.find?_cons_of_neg _ (by simpa using hx)]
      exact ih h

theorem find?_append_none {α : Type} {p : α → Bool} {l1 : List α}
    (h : l1.find? p = none) (l2 : List α) :
    (l1 ++ l2).find? p = l2.find? p := by
  induction l1 with
  | nil => rfl
  | cons x rest ih =>
    by_cases hx : p x = true
    · rw [List.find?_cons_of_pos _ hx] at h; cases h
    · rw [List.find?_cons_of_neg _ (by simpa using hx)] at h
      rw [List.cons_append, List.find?_cons_of_neg _ (by simpa using hx)]
      exact ih h

theorem updateProduct_frame (u : String) (inp : UpdateProductInput)
    (db : DB) :
    (updateProduct u inp db).2.orders = db.orders ∧
    (updateProduct u inp db).2.orderItems = db.orderItems := by
  unfold updateProduct
  split
  · exact ⟨rfl, rfl⟩
  · split
    · exact ⟨rfl, rfl⟩
    · split
      · exact ⟨rfl, rfl⟩
      · dsimp only
        split
        · exact ⟨rfl, rfl⟩
        · exact ⟨rfl, rfl⟩

theorem updateOrderStatus_frame (u : String) (oid : Nat)
    (s : OrderStatusInput) (db : DB) :
    (updateOrderStatus u oid s db).2.orderItems = db.orderItems ∧
    ((updateOrderStatus u oid s db).2.orders = db.orders ∨
     (updateOrderStatus u oid s db).2.orders =
       setOrderStatus db.orders oid s.toStatus) := by
  unfold updateOrderStatus
  split
  · exact ⟨rfl, Or.inl rfl⟩
  · split
    · exact ⟨rfl, Or.inl rfl⟩
    · split
      · exact ⟨rfl, Or.inl rfl⟩
      · split
        · exact ⟨rfl, Or.inl rfl⟩
        · split
          · exact ⟨rfl, Or.inl rfl⟩
          · split
            · rename_i hsc
              exact ⟨rfl, Or.inr (by subst hsc; rfl)⟩
            · exact ⟨rfl, Or.inr rfl⟩

theorem cancelOrder_frame (u : String) (oid : Nat) (db : DB) :
    (cancelOrder u oid db).2.orderItems = db.orderItems ∧
    ((cancelOrder u oid db).2.orders = db.orders ∨
     (cancelOrder u oid db).2.orders =
       setOrderStatus db.orders oid .CANCELLED) := by
  unfold cancelOrder
  split
  · exact ⟨rfl, Or.inl rfl⟩
  · split
    · exact ⟨rfl, Or.inl rfl⟩
    · split
      · exact ⟨rfl, Or.inl rfl⟩
      · exact ⟨rfl, Or.inr rfl⟩

theorem createOrder_frame (u a : String) (db : DB) :
    ∃ t1 t2, (createOrder u a db).2.orders = db.orders ++ t1 ∧
      (createOrder u a db).2.orderItems = db.orderItems ++ t2 := by
  rcases createOrder_cases u a db with ⟨h2, _⟩ | ⟨cart, _, _, _, heq⟩
  · exact ⟨[], [], by rw [h2, List.append_nil], by rw [h2, List.append_nil]⟩
  · refine ⟨groupOrders u a (groupsOf cart) db.nextOrderId,
      groupOrderItems (groupsOf cart) db.nextOrderId, ?_, ?_⟩
    · rw [show (createOrder u a db).2 = afterCreate u a db cart by rw [heq]]
      rfl
    · rw [show (createOrder u a db).2 = afterCreate u a db cart by rw [heq]]
      rfl

/-! ### C9: price immutability -/

/-- C9: `updateProduct` never changes any existing order or order item (in
particular no `OrderItem.price` and no `Order.total`), and no mutating
operation of the repository ever rewrites an existing order item — order
items are only ever appended (by `createOrder`), never recomputed from the
current product price. -/
theorem claim9_price_immutability (u : String) (inp : UpdateProductInput)
    (db : DB) :
    (updateProduct u inp db).2.orders = db.orders ∧
    (updateProduct u inp db).2.orderItems = db.orderItems ∧
    ∀ op : Op, ∃ t, (applyOp db op).orderItems = db.orderItems ++ t := by
  refine ⟨(updateProduct_frame u inp db).1, (updateProduct_frame u inp db).2,
    ?_⟩
  intro op
  cases op with
  | createOrderOp u2 a2 =>
    obtain ⟨t1, t2, _, h2⟩ := createOrder_frame u2 a2 db
    exact ⟨t2, h2⟩
  | updateOrderStatusOp u2 oid2 s2 =>
    exact ⟨[], by
      rw [List.append_nil]
      exact (updateOrderStatus_frame u2 oid2 s2 db).1⟩
  | cancelOrderOp u2 oid2 =>
    exact ⟨[], by
      rw [List.append_nil]
      exact (cancelOrder_frame u2 oid2 db).1⟩
  | updateProductOp u2 inp2 =>
    exact ⟨[], by
      rw [List.append_nil]
      exact (updateProduct_frame u2 inp2 db).2⟩

/-! ### C10: PENDING only at creation -/

theorem toStatus_ne_pending (s : OrderStatusInput) :
    s.toStatus ≠ .PENDING := by
  cases s <;> decide

/-- An order lookup is insensitive to everything but the `orders` table. -/
theorem findOrder_eq_find? (db : DB) (oid : Nat) :
    findOrder db oid = db.orders.find? (fun o => decide (o.id = oid)) := rfl

theorem nonpending_preserved {db : DB} {oid : Nat} {o : Order}
    (ho : findOrder db oid = some o) (hnp : o.status ≠ .PENDING) (op : Op) :
    ∃ o2, findOrder (applyOp db op) oid = some o2 ∧ o2.status ≠ .PENDING := by
  cases op with
  | createOrderOp u2 a2 =>
    obtain ⟨t1, _, h1, _⟩ := createOrder_frame u2 a2 db
    refine ⟨o, ?_, hnp⟩
    rw [findOrder_eq_find?, show (applyOp db (.createOrderOp u2 a2)).orders =
      db.orders ++ t1 from h1]
    exact find?_append_left ho t1
  | updateOrderStatusOp u2 oid2 s2 =>
    rcases (updateOrderStatus_frame u2 oid2 s2 db).2 with h1 | h1
    · refine ⟨o, ?_, hnp⟩
      rw [findOrder_eq_find?, show (applyOp db
        (.updateOrderStatusOp u2 oid2 s2)).orders = db.orders from h1]
      exact ho
    · rw [show applyOp db (.updateOrderStatusOp u2 oid2 s2) =
        (updateOrderStatus u2 oid2 s2 db).2 from rfl]
      rw [findOrder_eq_find?, h1, find?_setOrderStatus,
        show db.orders.find? (fun o2 => decide (o2.id = oid)) = some o from ho]
      by_cases hx : o.id = oid2
      · exact ⟨{ o with status := s2.toStatus },
          by rw [show Option.map (fun o2 => if o2.id = oid2 then
            { o2 with status := s2.toStatus } else o2) (some o) =
            some (if o.id = oid2 then { o with status := s2.toStatus }
            else o) from rfl, if_pos hx], toStatus_ne_pending s2⟩
      · exact ⟨o, by rw [show Option.map (fun o2 => if o2.id = oid2 then
            { o2 with status := s2.toStatus } else o2) (some o) =
            some (if o.id = oid2 then { o with status := s2.toStatus }
            else o) from rfl, if_neg hx], hnp⟩
  | cancelOrderOp u2 oid2 =>
    rcases (cancelOrder_frame u2 oid2 db).2 with h1 | h1
    · refine ⟨o, ?_, hnp⟩
      rw [findOrder_eq_find?, show (applyOp db
        (.cancelOrderOp u2 oid2)).orders = db.orders from h1]
      exact ho
    · rw [show applyOp db (.cancelOrderOp u2 oid2) =
        (cancelOrder u2 oid2 db).2 from rfl]
      rw [findOrder_eq_find?, h1, find?_setOrderStatus,
        show db.orders.find? (fun o2 => decide (o2.id = oid)) = some o from ho]
      by_cases hx : o.id = oid2
      · exact ⟨{ o with status := .CANCELLED },
          by rw [show Option.map (fun o2 => if o2.id = oid2 then
            { o2 with status := OrderStatus.CANCELLED } else o2) (some o) =
            some (if o.id = oid2 then { o with status := OrderStatus.CANCELLED }
            else o) from rfl, if_pos hx], by intro h; cases h⟩
      · exact ⟨o, by rw [show Option.map (fun o2 => if o2.id = oid2 then
            { o2 with status := OrderStatus.CANCELLED } else o2) (some o) =
            some (if o.id = oid2 then { o with status := OrderStatus.CANCELLED }
            else o) from rfl, if_neg hx], hnp⟩
  | updateProductOp u2 inp2 =>
    refine ⟨o, ?_, hnp⟩
    rw [findOrder_eq_find?, show (applyOp db
      (.updateProductOp u2 inp2)).orders = db.orders from
      (updateProduct_frame u2 inp2 db).1]
    exact ho

/-- C10: once an order's status differs from `PENDING`, no sequence of
mutating operations ever brings it back to `PENDING` — `updateOrderStatus`
only accepts the four non-PENDING targets and `cancelOrder` only writes
`CANCELLED`, while `createOrder` and `updateProduct` never touch existing
orders. -/
theorem claim10_pending_only_at_creation {db : DB} {oid : Nat} {o : Order}
    (ho : findOrder db oid = some o) (hnp : o.status ≠ .PENDING) :
    ∀ ops : List Op, ∃ o2, findOrder (applyOps db ops) oid = some o2 ∧
      o2.status ≠ .PENDING := by
  intro ops
  induction ops generalizing db o with
  | nil => exact ⟨o, ho, hnp⟩
  | cons op rest ih =>
    obtain ⟨o2, ho2, hnp2⟩ := nonpending_preserved ho hnp op
    exact ih ho2 hnp2

/-- An example state for C10: order 0 is `CONFIRMED`. -/
def exDb10 : DB :=
  ⟨[⟨"v1", "vu", true⟩], [], [], [],
   [⟨0, "cu", "v1", "addr", 10, .CONFIRMED⟩], [], 1⟩

theorem claim10_witness :
    ∃ o2, findOrder (applyOps exDb10
      [.updateOrderStatusOp "vu" 0 .SHIPPED, .cancelOrderOp "cu" 0]) 0 =
        some o2 ∧ o2.status ≠ .PENDING :=
  @claim10_pending_only_at_creation exDb10 0
    ⟨0, "cu", "v1", "addr", 10, .CONFIRMED⟩ rfl (by decide)
    [.updateOrderStatusOp "vu" 0 .SHIPPED, .cancelOrderOp "cu" 0]

/-! ### C5: DELIVERED and CANCELLED are terminal -/

theorem updateOrderStatus_terminal {db : DB} {oid : Nat} {o : Order}
    (ho : findOrder db oid = some o)
    (ht : o.status = .DELIVERED ∨ o.status = .CANCELLED)
    (u : String) (s : OrderStatusInput) :
    (updateOrderStatus u oid s db).2 = db ∧
    ∃ e, (updateOrderStatus u oid s db).1 = .error e := by
  unfold updateOrderStatus
  cases hv : findVendorByUserId db u with
  | none => exact ⟨rfl, _, rfl⟩
  | some v =>
    rw [ho]
    dsimp only
    by_cases hown : o.vendorId = v.id
    · rw [if_neg (fun hn => hn hown)]
      rcases ht with hd | hc
      · rw [if_neg (by rw [hd]; intro h; cases h), if_pos (by rw [hd])]
        exact ⟨rfl, _, rfl⟩
      · rw [if_pos (by rw [hc])]
        exact ⟨rfl, _, rfl⟩
    · rw [if_pos hown]
      exact ⟨rfl, _, rfl⟩

theorem updateOrderStatus_terminal_badRequest {db : DB} {oid : Nat}
    {o : Order} {v : Vendor}
    (ho : findOrder db oid = some o)
    (ht : o.status = .DELIVERED ∨ o.status = .CANCELLED)
    (u : String) (s : OrderStatusInput)
    (hv : findVendorByUserId db u = some v) (hown : o.vendorId = v.id) :
    ∃ m, (updateOrderStatus u oid s db).1 = .error (.BAD_REQUEST m) := by
  unfold updateOrderStatus
  rw [hv, ho]
  dsimp only
  rw [if_neg (fun hn => hn hown)]
  rcases ht with hd | hc
  · rw [if_neg (by rw [hd]; intro h; cases h), if_pos (by rw [hd])]
    exact ⟨_, rfl⟩
  · rw [if_pos (by rw [hc])]
    exact ⟨_, rfl⟩

theorem cancelOrder_terminal {db : DB} {oid : Nat} {o : Order}
    (ho : findOrder db oid = some o)
    (ht : o.status = .DELIVERED ∨ o.status = .CANCELLED) (u : String) :
    (cancelOrder u oid db).2 = db ∧
    ∃ e, (cancelOrder u oid db).1 = .error e := by
  unfold cancelOrder
  rw [ho]
  dsimp only
  by_cases hu : o.userId = u
  · have hst : o.status ≠ .PENDING ∧ o.status ≠ .CONFIRMED := by
      rcases ht with hd | hc
      · exact ⟨(by rw [hd]; intro h; cases h), (by rw [hd]; intro h; cases h)⟩
      · exact ⟨(by rw [hc]; intro h; cases h), (by rw [hc]; intro h; cases h)⟩
    rw [if_neg (fun hn => hn hu), if_pos hst]
    exact ⟨rfl, _, rfl⟩
  · rw [if_pos hu]
    exact ⟨rfl, _, rfl⟩

theorem terminal_preserved {db : DB} {oid : Nat} {o : Order}
    (ho : findOrder db oid = some o)
    (ht : o.status = .DELIVERED ∨ o.status = .CANCELLED) (op : Op) :
    findOrder (applyOp db op) oid = some o := by
  cases op with
  | createOrderOp u2 a2 =>
    obtain ⟨t1, _, h1, _⟩ := createOrder_frame u2 a2 db
    rw [findOrder_eq_find?, show (applyOp db (.createOrderOp u2 a2)).orders =
      db.orders ++ t1 from h1]
    exact find?_append_left ho t1
  | updateOrderStatusOp u2 oid2 s2 =>
    by_cases hx : oid2 = oid
    · subst hx
      rw [show applyOp db (.updateOrderStatusOp u2 oid2 s2) =
        (updateOrderStatus u2 oid2 s2 db).2 from rfl,
        (updateOrderStatus_terminal ho ht u2 s2).1]
      exact ho
    · rcases (updateOrderStatus_frame u2 oid2 s2 db).2 with h1 | h1
      · rw [findOrder_eq_find?, show (applyOp db
          (.updateOrderStatusOp u2 oid2 s2)).orders = db.orders from h1]
        exact ho
      · rw [findOrder_eq_find?, show (applyOp db
          (.updateOrderStatusOp u2 oid2 s2)).orders =
          setOrderStatus db.orders oid2 s2.toStatus from h1,
          find?_setOrderStatus,
          show db.orders.find? (fun o2 => decide (o2.id = oid)) = some o
            from ho,
          show Option.map (fun o2 => if o2.id = oid2 then
            { o2 with status := s2.toStatus } else o2) (some o) =
            some (if o.id = oid2 then { o with status := s2.toStatus }
            else o) from rfl,
          if_neg (by rw [findOrder_id ho]; exact fun hh => hx hh.symm)]
  | cancelOrderOp u2 oid2 =>
    by_cases hx : oid2 = oid
    · subst hx
      rw [show applyOp db (.cancelOrderOp u2 oid2) =
        (cancelOrder u2 oid2 db).2 from rfl,
        (cancelOrder_terminal ho ht u2).1]
      exact ho
    · rcases (cancelOrder_frame u2 oid2 db).2 with h1 | h1
      · rw [findOrder_eq_find?, show (applyOp db
          (.cancelOrderOp u2 oid2)).orders = db.orders from h1]
        exact ho
      · rw [findOrder_eq_find?, show (applyOp db
          (.cancelOrderOp u2 oid2)).orders =
          setOrderStatus db.orders oid2 .CANCELLED from h1,
          find?_setOrderStatus,
          show db.orders.find? (fun o2 => decide (o2.id = oid)) = some o
            from ho,
          show Option.map (fun o2 => if o2.id = oid2 then
            { o2 with status := OrderStatus.CANCELLED } else o2) (some o) =
            some (if o.id = oid2 then
              { o with status := OrderStatus.CANCELLED } else o) from rfl,
          if_neg (by rw [findOrder_id ho]; exact fun hh => hx hh.symm)]
  | updateProductOp u2 inp2 =>
    rw [findOrder_eq_find?, show (applyOp db
      (.updateProductOp u2 inp2)).orders = db.orders from
      (updateProduct_frame u2 inp2 db).1]
    exact ho

/-- C5 amended: for an order whose status is `DELIVERED` or `CANCELLED`,
every `updateOrderStatus` call fails and leaves the state unchanged — with
`BAD_REQUEST` whenever the caller resolves to the order's owning vendor,
and with `FORBIDDEN`/`NOT_FOUND` from the earlier authorization checks
otherwise — every `cancelOrder` call fails and leaves the state unchanged,
and no sequence of mutating operations ever changes the order again. -/
theorem claim5_terminal_orders {db : DB} {oid : Nat} {o : Order}
    (ho : findOrder db oid = some o)
    (ht : o.status = .DELIVERED ∨ o.status = .CANCELLED) :
    (∀ u s, (updateOrderStatus u oid s db).2 = db ∧
      ∃ e, (updateOrderStatus u oid s db).1 = .error e) ∧
    (∀ u s v, findVendorByUserId db u = some v → o.vendorId = v.id →
      ∃ m, (updateOrderStatus u oid s db).1 = .error (.BAD_REQUEST m)) ∧
    (∀ u, (cancelOrder u oid db).2 = db ∧
      ∃ e, (cancelOrder u oid db).1 = .error e) ∧
    (∀ ops : List Op, findOrder (applyOps db ops) oid = some o) := by
  refine ⟨fun u s => updateOrderStatus_terminal ho ht u s,
    fun u s v hv hown =>
      updateOrderStatus_terminal_badRequest ho ht u s hv hown,
    fun u => cancelOrder_terminal ho ht u, ?_⟩
  have hall : ∀ (ops : List Op) (db2 : DB), findOrder db2 oid = some o →
      findOrder (applyOps db2 ops) oid = some o := by
    intro ops
    induction ops with
    | nil => intro db2 h2; exact h2
    | cons op rest ih =>
      intro db2 h2
      exact ih _ (terminal_preserved h2 ht op)
  exact fun ops => hall ops db ho

/-- An example state with a `DELIVERED` order 0 owned by vendor `v1`. -/
def exDb5 : DB :=
  ⟨[⟨"v1", "vu", true⟩], [], [], [],
   [⟨0, "cu", "v1", "addr", 10, .DELIVERED⟩], [], 1⟩

/-- C5 counterexample to the claim as stated: on a `DELIVERED` order, a
caller without a vendor profile fails with `FORBIDDEN` (the vendor lookup
runs before the terminal-state guard), not with `BAD_REQUEST`. -/
theorem claim5_counterexample :
    (updateOrderStatus "nobody" 0 .CONFIRMED exDb5).1 =
      .error (.FORBIDDEN "You must be a vendor to perform this action") :=
  rfl

theorem claim5_witness :
    ((updateOrderStatus "vu" 0 .CONFIRMED exDb5).2 = exDb5 ∧
      ∃ e, (updateOrderStatus "vu" 0 .CONFIRMED exDb5).1 = .error e) ∧
    (∃ m, (updateOrderStatus "vu" 0 .SHIPPED exDb5).1 =
      .error (.BAD_REQUEST m)) ∧
    ((cancelOrder "cu" 0 exDb5).2 = exDb5 ∧
      ∃ e, (cancelOrder "cu" 0 exDb5).1 = .error e) ∧
    findOrder (applyOps exDb5
      [.cancelOrderOp "cu" 0, .updateOrderStatusOp "vu" 0 .CANCELLED]) 0 =
      some ⟨0, "cu", "v1", "addr", 10, .DELIVERED⟩ := by
  have h := @claim5_terminal_orders exDb5 0
    ⟨0, "cu", "v1", "addr", 10, .DELIVERED⟩ rfl (Or.inl rfl)
  exact ⟨h.1 "vu" .CONFIRMED,
    h.2.1 "vu" .SHIPPED ⟨"v1", "vu", true⟩ rfl rfl,
    h.2.2.1 "cu",
    h.2.2.2 [.cancelOrderOp "cu" 0, .updateOrderStatusOp "vu" 0 .CANCELLED]⟩

/-! ### C4: cancellation restores stock exactly -/

theorem groupsOf_keys (l : List CartItemWithProduct) :
    (groupsOf l).map (fun g => g.1) = vendorKeys l := by
  rw [groupsOf, List.map_map]
  have hcomp : ((fun g : String × List CartItemWithProduct => g.1) ∘
      (fun v => (v, l.filter (fun it => decide (it.product.vendorId = v))))) =
      id := funext fun v => rfl
  rw [hcomp, List.map_id]

theorem groupOrders_length (u a : String) :
    ∀ (gs : List (String × List CartItemWithProduct)) (n : Nat),
      (groupOrders u a gs n).length = gs.length := by
  intro gs
  induction gs with
  | nil => intro n; rfl
  | cons g rest ih => intro n; simp [groupOrders, ih]

/-- The success path of `cancelOrder`. -/
theorem cancelOrder_success {u : String} {db : DB} {oid : Nat} {o : Order}
    (ho : findOrder db oid = some o) (hu : o.userId = u)
    (hst : o.status = .PENDING ∨ o.status = .CONFIRMED) :
    cancelOrder u oid db =
      (.ok { o with status := .CANCELLED },
       { db with
          products := restoreStock db.products (orderItemsOf db oid),
          orders := setOrderStatus db.orders oid .CANCELLED }) := by
  unfold cancelOrder
  rw [ho]
  dsimp only
  rw [if_neg (fun hn => hn hu), if_neg ?_]
  rintro ⟨h1, h2⟩
  rcases hst with hs | hs
  · exact h1 hs
  · exact h2 hs

/-- The stock-restoring cancellation path of `updateOrderStatus`. -/
theorem updateOrderStatus_cancel_success {u : String} {db : DB} {oid : Nat}
    {o : Order} {v : Vendor}
    (hv : findVendorByUserId db u = some v) (ho : findOrder db oid = some o)
    (hown : o.vendorId = v.id) (hnc : o.status ≠ .CANCELLED)
    (hnd : o.status ≠ .DELIVERED) :
    updateOrderStatus u oid .CANCELLED db =
      (.ok { o with status := .CANCELLED },
       { db with
          products := restoreStock db.products (orderItemsOf db oid),
          orders := setOrderStatus db.orders oid .CANCELLED }) := by
  unfold updateOrderStatus
  rw [hv, ho]
  dsimp only
  rw [if_neg (fun hn => hn hown), if_neg hnc, if_neg hnd, if_pos rfl]

/-- C4: after a checkout that produced the single order `o`, cancelling `o`
— through the customer's `cancelOrder` or the owning vendor's
`updateOrderStatus` — adds each order item's quantity back exactly once,
restoring every product to its pre-checkout stock. -/
theorem claim4_cancellation_restores_stock {u a : String} {db : DB}
    {o : Order} {db1 : DB}
    (h : createOrder u a db = (.ok [o], db1))
    (hfreshO : ∀ o2 ∈ db.orders, o2.id < db.nextOrderId)
    (hfreshI : ∀ oi ∈ db.orderItems, oi.orderId < db.nextOrderId) :
    ((cancelOrder u o.id db1).2.products = db.products ∧
      ∃ o2, (cancelOrder u o.id db1).1 = .ok o2 ∧ o2.status = .CANCELLED) ∧
    (∀ vu v, findVendorByUserId db1 vu = some v → v.id = o.vendorId →
      (updateOrderStatus vu o.id .CANCELLED db1).2.products = db.products ∧
      ∃ o2, (updateOrderStatus vu o.id .CANCELLED db1).1 = .ok o2 ∧
        o2.status = .CANCELLED) := by
  obtain ⟨cart, hl, hne, hv, hos, hdb1⟩ := createOrder_ok h
  have hlen : (groupsOf cart).length = 1 := by
    have hlen2 := congrArg List.length hos
    rw [groupOrders_length] at hlen2
    exact hlen2.symm
  obtain ⟨g, hg⟩ := List.length_eq_one.mp hlen
  have ho_eq : o = mkOrder u a db.nextOrderId g := by
    rw [hg] at hos
    rw [show groupOrders u a [g] db.nextOrderId =
      [mkOrder u a db.nextOrderId g] from rfl] at hos
    injection hos
  have hoid : o.id = db.nextOrderId := by rw [ho_eq, mkOrder_id]
  have hkeys : vendorKeys cart = [g.1] := by
    rw [← groupsOf_keys, hg]
    rfl
  have hallv : ∀ it ∈ cart, it.product.vendorId = g.1 := by
    intro it hit
    have hmem := vendorKeys_covers hit
    rw [hkeys] at hmem
    simpa using hmem
  have hg2 : g.2 = cart := by
    have hgmem : g ∈ groupsOf cart := by
      rw [hg]
      exact List.mem_cons_self g []
    obtain ⟨v0, _, heq⟩ := List.mem_map.mp hgmem
    have hv0 : g.1 = v0 := by rw [← heq]
    rw [← heq]
    show cart.filter (fun it => decide (it.product.vendorId = v0)) = cart
    rw [List.filter_eq_self]
    intro it hit
    simp only [decide_eq_true_eq]
    rw [hallv it hit, hv0]
  subst hdb1
  have horders1 : (afterCreate u a db cart).orders = db.orders ++ [o] := by
    show db.orders ++ groupOrders u a (groupsOf cart) db.nextOrderId = _
    rw [hg, show groupOrders u a [g] db.nextOrderId =
      [mkOrder u a db.nextOrderId g] from rfl, ← ho_eq]
  have hitems1 : (afterCreate u a db cart).orderItems =
      db.orderItems ++ mkOrderItems o.id cart := by
    show db.orderItems ++ groupOrderItems (groupsOf cart) db.nextOrderId = _
    rw [hg, show groupOrderItems [g] db.nextOrderId =
      mkOrderItems db.nextOrderId g.2 ++ [] from rfl, List.append_nil, hg2,
      hoid]
  have hprods1 : (afterCreate u a db cart).products =
      applyAdjusts db.products (cartDeltas cart) := by
    show applyAdjusts db.products (cartDeltas (allItems (groupsOf cart))) = _
    rw [hg, show allItems [g] = g.2 ++ [] from rfl, List.append_nil, hg2]
  have hfind1 : findOrder (afterCreate u a db cart) o.id = some o := by
    rw [findOrder_eq_find?, horders1]
    have hnone : db.orders.find? (fun o2 => decide (o2.id = o.id)) = none := by
      rw [List.find?_eq_none]
      intro o2 ho2
      simp only [decide_eq_true_eq]
      have := hfreshO o2 ho2
      rw [hoid]
      omega
    rw [find?_append_none hnone]
    rw [List.find?_cons_of_pos _ (by simp)]
  have hitemsOf : orderItemsOf (afterCreate u a db cart) o.id =
      mkOrderItems o.id cart := by
    rw [orderItemsOf, hitems1, List.filter_append]
    have h1 : db.orderItems.filter (fun oi => decide (oi.orderId = o.id)) =
        [] := by
      rw [List.filter_eq_nil_iff]
      intro oi hoi
      simp only [decide_eq_true_eq]
      have := hfreshI oi hoi
      rw [hoid]
      omega
    have h2 : (mkOrderItems o.id cart).filter
        (fun oi => decide (oi.orderId = o.id)) = mkOrderItems o.id cart := by
      rw [List.filter_eq_self]
      intro oi hoi
      obtain ⟨it, _, heq⟩ := List.mem_map.mp hoi
      rw [← heq]
      simp
    rw [h1, h2, List.nil_append]
  have hrestore : restoreStock
      (applyAdjusts db.products (cartDeltas cart))
      (mkOrderItems o.id cart) = db.products := by
    rw [restoreStock_eq, applyAdjusts_eq_map, applyAdjusts_eq_map,
      List.map_map]
    have hfun : ((fun p : Product => { p with stock := p.stock + netDelta p.id (itemDeltas (mkOrderItems o.id cart)) }) ∘
        (fun p : Product => { p with stock := p.stock + netDelta p.id (cartDeltas cart) })) = id := by
      funext p
      show ({ p with stock := p.stock + netDelta p.id (cartDeltas cart) + netDelta p.id (itemDeltas (mkOrderItems o.id cart)) } : Product) = p
      rw [netDelta_cartDeltas, netDelta_itemDeltas]
      rw [show p.stock + -((sumQty p.id cart : Nat) : Int) + ((sumQty p.id cart : Nat) : Int) = p.stock by ring]
    rw [hfun, List.map_id]
  constructor
  · have hc := cancelOrder_success hfind1
      (by rw [ho_eq, mkOrder_userId])
      (Or.inl (by rw [ho_eq, mkOrder_status]))
    constructor
    · rw [hc]
      dsimp only
      rw [hprods1, hitemsOf]
      exact hrestore
    · exact ⟨{ o with status := .CANCELLED }, by rw [hc], rfl⟩
  · intro vu v hvv hvid
    have hupd := updateOrderStatus_cancel_success hvv hfind1 hvid.symm
      (by rw [ho_eq, mkOrder_status]; decide)
      (by rw [ho_eq, mkOrder_status]; decide)
    constructor
    · rw [hupd]
      dsimp only
      rw [hprods1, hitemsOf]
      exact hrestore
    · exact ⟨{ o with status := .CANCELLED }, by rw [hupd], rfl⟩

/-- An example state for C4: one vendor, one product (price 10, stock 5),
one cart line of quantity 2. -/
def exDb4 : DB :=
  ⟨[⟨"v1", "vu", true⟩],
   [⟨"p1", "v1", "Widget", "An example widget", 10, 5, true, "c1"⟩],
   ["c1"],
   [⟨"cu", "p1", 2⟩],
   [], [], 0⟩

/-- The single order created by the C4 witness checkout. -/
def exOrder4 : Order := ⟨0, "cu", "v1", "45 Demo Avenue 1000", 20, .PENDING⟩

/-- The state after the C4 witness checkout (stock 5 dropped to 3). -/
def exDb4after : DB :=
  ⟨[⟨"v1", "vu", true⟩],
   [⟨"p1", "v1", "Widget", "An example widget", 10, 3, true, "c1"⟩],
   ["c1"], [], [exOrder4], [⟨0, "p1", 2, 10⟩], 1⟩

theorem claim4_witness :
    ((cancelOrder "cu" exOrder4.id exDb4after).2.products = exDb4.products ∧
      ∃ o2, (cancelOrder "cu" exOrder4.id exDb4after).1 = .ok o2 ∧
        o2.status = .CANCELLED) ∧
    (∀ vu v, findVendorByUserId exDb4after vu = some v →
      v.id = exOrder4.vendorId →
      (updateOrderStatus vu exOrder4.id .CANCELLED exDb4after).2.products =
        exDb4.products ∧
      ∃ o2, (updateOrderStatus vu exOrder4.id .CANCELLED
        exDb4after).1 = .ok o2 ∧ o2.status = .CANCELLED) :=
  @claim4_cancellation_restores_stock "cu" "45 Demo Avenue 1000" exDb4
    exOrder4 exDb4after (by rfl) (by decide) (by decide)

end MarketHub
